import Mathlib

/-! # url-shortner: a shallow embedding of the alias and click-analytics core

The development follows the package layout of the Go repository:

* `entity`   : `internal/entity/entity.go`
* `dto`      : `internal/handler/dto/shorter.go`
* `service`  : `internal/service/shorter_service.go`
* `postgres` : `internal/repositories/postgres/urlStorage.go`
* `handler`  : `internal/handler/handler.go`

Go strings are embedded as Lean strings (sequences of Unicode code points); the Go
builtin `len` on a string is the UTF-8 byte count, `String.utf8ByteSize`.  A Go result
pair `(v, err)` is embedded as `v × Option GoError`, with `none` for a nil error.
Stateful collaborators (the relational store, the cache) are embedded by explicit
state passing.
-/

namespace Shortner

/-! ## Go error values -/

/-- Go error values as they are built in this repository: package-level values made by
`errors.New`, values made by `fmt.Errorf` with or without a wrapping verb, the driver
error of `lib/pq` carrying an SQLSTATE code, and any other opaque error. -/
inductive GoError where
  | sentinel (text : String)
  | errorf (text : String)
  | wrapf (pre : String) (inner : GoError) (post : String)
  | pq (code : String) (message : String)
  | other (text : String)
  deriving DecidableEq, Repr

namespace GoError

/-- The method `Error()`: the text of an error value. -/
def Error : GoError → String
  | sentinel t => t
  | errorf t => t
  | wrapf pre inner post => pre ++ Error inner ++ post
  | pq _ m => "pq: " ++ m
  | other t => t

/-- The function `errors.Is`: the chain of `Unwrap` is searched for the target. Only values
built by `fmt.Errorf` with the verb `%w` have an `Unwrap` method. -/
def Is : GoError → GoError → Bool
  | wrapf pre inner post, target =>
      decide (wrapf pre inner post = target) || Is inner target
  | e, target => decide (e = target)

/-- The call `errors.As(err, &pgErr)` for a target of type `*pq.Error`: the SQLSTATE code
of the first driver error on the `Unwrap` chain, if there is one. -/
def AsPq : GoError → Option String
  | pq code _ => some code
  | wrapf _ inner _ => AsPq inner
  | _ => none

end GoError

/-! ## internal/entity -/

namespace entity

/-- A `time.Time` value broken into calendar fields (in the time zone of the store). -/
structure Time where
  year : Nat
  month : Nat
  day : Nat
  hour : Nat
  minute : Nat
  second : Nat
  deriving DecidableEq, Repr

/-- The zero value of `time.Time`: January 1, year 1, 00:00:00. -/
def Time.zero : Time := ⟨1, 1, 1, 0, 0, 0⟩

/-- The struct `entity.URL`. Defaults are the Go zero values. -/
structure URL where
  ID : Int := 0
  OriginalURL : String := ""
  Alias : String := ""
  CreatedAt : Time := Time.zero
  deriving DecidableEq, Repr

/-- The struct `entity.ClickLogs`. -/
structure ClickLogs where
  ID : Int := 0
  URLID : Int := 0
  UserAgent : String := ""
  IPAddress : String := ""
  ClickedAt : Time := Time.zero
  deriving DecidableEq, Repr

/-- The struct `entity.StatDay`. -/
structure StatDay where
  Day : Time
  Count : Int
  deriving DecidableEq, Repr

/-- The struct `entity.StatMonth`. -/
structure StatMonth where
  Month : Time
  Count : Int
  deriving DecidableEq, Repr

/-- The struct `entity.StatAgent`. -/
structure StatAgent where
  UserAgent : String
  Count : Int
  deriving DecidableEq, Repr

end entity

/-! ## internal/handler/dto -/

namespace dto

/-- The struct `dto.CreateURLShorterRequest`. -/
structure CreateURLShorterRequest where
  URL : String := ""
  CustomAlias : String := ""
  deriving DecidableEq, Repr

/-- The struct `dto.ShortenResponse`. -/
structure ShortenResponse where
  Alias : String
  Short : String
  deriving DecidableEq, Repr

/-- The struct `dto.ShortenResponseAnalytics`. -/
structure ShortenResponseAnalytics where
  Records : List entity.ClickLogs
  Alias : String
  ByDay : List entity.StatDay
  ByMonth : List entity.StatMonth
  ByAgent : List entity.StatAgent
  ClicksTotal : Int
  deriving DecidableEq, Repr

end dto

/-! ## encoding/base64 (standard library, used by `generateAlias`) -/

namespace base64

/-- The 64-character alphabet of `base64.URLEncoding`. -/
def encodeURL : List Char :=
  ['A', 'B', 'C', 'D', 'E', 'F', 'G', 'H', 'I', 'J', 'K', 'L', 'M',
   'N', 'O', 'P', 'Q', 'R', 'S', 'T', 'U', 'V', 'W', 'X', 'Y', 'Z',
   'a', 'b', 'c', 'd', 'e', 'f', 'g', 'h', 'i', 'j', 'k', 'l', 'm',
   'n', 'o', 'p', 'q', 'r', 's', 't', 'u', 'v', 'w', 'x', 'y', 'z',
   '0', '1', '2', '3', '4', '5', '6', '7', '8', '9', '-', '_']

/-- The table lookup `enc.encode[i]`; every index the encoder uses is below 64. -/
def enc (i : Nat) : Char := encodeURL.getD i 'A'

/-- The method `RawURLEncoding.EncodeToString` on a byte slice (every element is taken
modulo 256): three bytes give four characters, a remainder of two bytes gives three
characters and a remainder of one byte gives two; no padding is written.  For bytes,
`a<<16 | b<<8 | c` is `a*65536 + b*256 + c` and `v>>k & 0x3F` is `v / 2^k % 64`. -/
def EncodeToString : List Nat → List Char
  | a :: b :: c :: rest =>
      let val := (a % 256) * 65536 + (b % 256) * 256 + (c % 256)
      enc (val / 262144 % 64) :: enc (val / 4096 % 64) :: enc (val / 64 % 64)
        :: enc (val % 64) :: EncodeToString rest
  | [a, b] =>
      let val := (a % 256) * 65536 + (b % 256) * 256
      [enc (val / 262144 % 64), enc (val / 4096 % 64), enc (val / 64 % 64)]
  | [a] =>
      let val := (a % 256) * 65536
      [enc (val / 262144 % 64), enc (val / 4096 % 64)]
  | [] => []

end base64

/-! ## internal/service -/

namespace service

/-- The sentinel `ErrAliasIncorrect`. -/
def ErrAliasIncorrect : GoError := GoError.sentinel "alias must be alphanumeric, -, _"

/-- The interface `URLRepo` of the service package, over a store whose state has type `σ`. -/
structure URLRepo (σ : Type) where
  SaveURL : σ → entity.URL → σ × (Int × Option GoError)
  GetURL : σ → entity.URL → σ × (Option entity.URL × Option GoError)
  SaveUserClick : σ → entity.ClickLogs → σ × Option GoError
  GetAnalytics : σ → entity.URL → σ × (List entity.ClickLogs × Option GoError)
  StatisticDay : σ → entity.URL → σ × (List entity.StatDay × Option GoError)
  StatisticMonth : σ → entity.URL → σ × (List entity.StatMonth × Option GoError)
  StatisticAgent : σ → entity.URL → σ × (List entity.StatAgent × Option GoError)
  CountClicks : σ → entity.URL → σ × (Int × Option GoError)

/-- The cache client `*redis.Client`, of which the service uses the method `Get` only. -/
structure RedisClient (σ : Type) where
  Get : σ → String → σ × (String × Option GoError)

/-- The struct `ShortenerService`; a nil `Cache` pointer is `none`. -/
structure ShortenerService (σ : Type) where
  URLRepo : URLRepo σ
  Cache : Option (RedisClient σ) := none

/-- The constructor `NewShorterService`: the cache is left nil. -/
def NewShorterService {σ : Type} (repo : URLRepo σ) : ShortenerService σ :=
  { URLRepo := repo }

/-- What a call of `generateAlias` reads from outside: the outcome of `rand.Read`
(the bytes written into the buffer, or an error) and the wall clock of `time.Now()`. -/
structure Ambient where
  randRead : Except GoError (List Nat)
  now : entity.Time

/-- Two decimal digits of a clock field, as `time.Format` prints them. -/
def pad2 (n : Nat) : List Char :=
  [Char.ofNat (48 + n / 10 % 10), Char.ofNat (48 + n % 10)]

/-- The layout `time.Now().Format("150405")`: hour, minute, second, two digits each. -/
def Format150405 (t : entity.Time) : String :=
  String.mk (pad2 t.hour ++ pad2 t.minute ++ pad2 t.second)

/-- The function `generateAlias`. -/
def generateAlias (n : Nat) (amb : Ambient) : String :=
  match amb.randRead with
  | .error _ => Format150405 amb.now
  | .ok b => String.mk ((base64.EncodeToString b).take n)

/-- The character class `[A-Za-z0-9_-]` of the alias pattern. -/
def aliasClass (c : Char) : Bool :=
  (decide ('A' ≤ c) && decide (c ≤ 'Z')) || (decide ('a' ≤ c) && decide (c ≤ 'z')) ||
  (decide ('0' ≤ c) && decide (c ≤ '9')) || decide (c = '_') || decide (c = '-')

/-- The function `isValidAlias` of the service: a match of the anchored pattern
`^[A-Za-z0-9_-]+$`, that is one or more characters, all of the class. -/
def isValidAlias (a : String) : Bool :=
  !a.data.isEmpty && a.data.all aliasClass

/-- The method `ShortenerService.CreateShortURL`. -/
def CreateShortURL {σ : Type} (s : ShortenerService σ) (amb : Ambient) (st : σ)
    (request : dto.CreateURLShorterRequest) : σ × (String × Option GoError) :=
  if request.URL = "" then (st, "", some (GoError.sentinel "url is empty"))
  else
    let aliasV := if request.CustomAlias = "" then generateAlias 8 amb else request.CustomAlias
    if !isValidAlias aliasV then (st, "", some ErrAliasIncorrect)
    else
      match s.URLRepo.SaveURL st { Alias := aliasV, OriginalURL := request.URL } with
      | (st', _, some err) => (st', "", some err)
      | (st', _, none) => (st', aliasV, none)

/-- The method `ShortenerService.GetURL`. -/
def GetURL {σ : Type} (s : ShortenerService σ) (st : σ) (url : entity.URL) :
    σ × (Option entity.URL × Option GoError) :=
  let cacheKey := "short:" ++ url.Alias
  match s.Cache with
  | some cache =>
      match cache.Get st cacheKey with
      | (st', cached, none) =>
          (st', some { Alias := url.Alias, OriginalURL := cached }, none)
      | (st', _, some _) => s.URLRepo.GetURL st' url
  | none => s.URLRepo.GetURL st url

/-- The method `ShortenerService.GetAnalytics`. -/
def GetAnalytics {σ : Type} (s : ShortenerService σ) (st : σ) (url : entity.URL) :
    σ × (List entity.ClickLogs × Option GoError) :=
  s.URLRepo.GetAnalytics st url

/-- The method `ShortenerService.SaveUserClick`. -/
def SaveUserClick {σ : Type} (s : ShortenerService σ) (st : σ) (click : entity.ClickLogs) :
    σ × Option GoError :=
  s.URLRepo.SaveUserClick st click

/-- The method `ShortenerService.CountClicks`. -/
def CountClicks {σ : Type} (s : ShortenerService σ) (st : σ) (url : entity.URL) :
    σ × (Int × Option GoError) :=
  s.URLRepo.CountClicks st url

/-- The method `ShortenerService.StatisticDay`. -/
def StatisticDay {σ : Type} (s : ShortenerService σ) (st : σ) (url : entity.URL) :
    σ × (List entity.StatDay × Option GoError) :=
  s.URLRepo.StatisticDay st url

/-- The method `ShortenerService.StatisticMonth`. -/
def StatisticMonth {σ : Type} (s : ShortenerService σ) (st : σ) (url : entity.URL) :
    σ × (List entity.StatMonth × Option GoError) :=
  s.URLRepo.StatisticMonth st url

/-- The method `ShortenerService.StatisticAgent`. -/
def StatisticAgent {σ : Type} (s : ShortenerService σ) (st : σ) (url : entity.URL) :
    σ × (List entity.StatAgent × Option GoError) :=
  s.URLRepo.StatisticAgent st url

/-! ### Recording the calls a service makes on its collaborators -/

/-- One call on a collaborator of the service: a cache lookup or a repository method. -/
inductive Call where
  | cacheGet (key : String)
  | saveURL (url : entity.URL)
  | getURL (url : entity.URL)
  | saveUserClick (click : entity.ClickLogs)
  | getAnalytics (url : entity.URL)
  | statisticDay (url : entity.URL)
  | statisticMonth (url : entity.URL)
  | statisticAgent (url : entity.URL)
  | countClicks (url : entity.URL)
  deriving DecidableEq, Repr

/-- Runs one collaborator call and appends its record to the log carried beside the state. -/
def logged {σ α β : Type} (f : σ → α → σ × β) (mk : α → Call) :
    σ × List Call → α → (σ × List Call) × β :=
  fun w x => (((f w.1 x).1, w.2 ++ [mk x]), (f w.1 x).2)

/-- The repository with every method recorded. -/
def spyRepo {σ : Type} (r : URLRepo σ) : URLRepo (σ × List Call) where
  SaveURL := logged r.SaveURL Call.saveURL
  GetURL := logged r.GetURL Call.getURL
  SaveUserClick := logged r.SaveUserClick Call.saveUserClick
  GetAnalytics := logged r.GetAnalytics Call.getAnalytics
  StatisticDay := logged r.StatisticDay Call.statisticDay
  StatisticMonth := logged r.StatisticMonth Call.statisticMonth
  StatisticAgent := logged r.StatisticAgent Call.statisticAgent
  CountClicks := logged r.CountClicks Call.countClicks

/-- The cache client with every lookup recorded. -/
def spyCache {σ : Type} (c : RedisClient σ) : RedisClient (σ × List Call) where
  Get := logged c.Get Call.cacheGet

/-- The service over recorded collaborators: same code, and the log lists what it called. -/
def spy {σ : Type} (s : ShortenerService σ) : ShortenerService (σ × List Call) where
  URLRepo := spyRepo s.URLRepo
  Cache := s.Cache.map spyCache

end service

/-! ## The cache client (external library `wbf/redis`) -/

namespace redis

/-- The error `redis.Nil` that a lookup of an absent key returns. -/
def Nil : GoError := GoError.sentinel "redis: nil"

/-- A cache client whose lookups are answered by `answers` and touch nothing else: the
value under the key with a nil error, or an error (a miss, a failed connection). The
service never writes to the cache, so `answers` is the whole state of the cache. -/
def New {σ : Type} (answers : String → String × Option GoError) : service.RedisClient σ where
  Get := fun st key => (st, answers key)

/-- The answers of a cache holding the listed key-value pairs: the first value under the
key, or `redis.Nil` on a miss. -/
def holding (entries : List (String × String)) : String → String × Option GoError :=
  fun key =>
    match entries.find? (fun kv => decide (kv.1 = key)) with
    | some kv => (kv.2, none)
    | none => ("", some Nil)

end redis

/-! ## internal/repositories/postgres -/

namespace postgres

/-- The sentinel `ErrUrlNotFound`. -/
def ErrUrlNotFound : GoError := GoError.sentinel "url not found"

/-- The sentinel `ErrAliasExists`. -/
def ErrAliasExists : GoError := GoError.sentinel "alias already exists"

/-- The sentinel `ErrAliasTooLarge`. -/
def ErrAliasTooLarge : GoError := GoError.sentinel "alias too large"

/-- The sentinel `sql.ErrNoRows` of `database/sql`. -/
def ErrNoRows : GoError := GoError.sentinel "sql: no rows in result set"

/-- Modelled from the spec: the persisted schema, which the repository keeps outside the
Go sources. `short_urls(id, original_url, alias UNIQUE, created_at)` and
`click_logs(id, url_id REFERENCES short_urls, user_agent, ip_address, clicked_at)`; a row is
held in the entity struct the code scans it into. Ids are assigned by the store, and
`created_at` / `clicked_at` are set at insert from the clock of the store. -/
structure DB where
  short_urls : List entity.URL := []
  click_logs : List entity.ClickLogs := []
  next_url_id : Int := 1
  next_click_id : Int := 1
  clock : entity.Time := entity.Time.zero
  deriving DecidableEq, Repr

/-- Modelled from the spec: the statement
`INSERT INTO public.short_urls(original_url, alias) VALUES($1, $2) RETURNING id`.
Alias is unique: a duplicate is a conflict (SQLSTATE 23505, unique_violation) and leaves
the table as it was; otherwise one row is added under a store-assigned id. -/
def insertShortURL (db : DB) (original_url alias_ : String) : DB × Except GoError Int :=
  if db.short_urls.any (fun s => decide (s.Alias = alias_)) then
    (db, .error (GoError.pq "23505" "duplicate key value violates unique constraint"))
  else
    ({ db with
        short_urls := db.short_urls ++
          [{ ID := db.next_url_id, OriginalURL := original_url, Alias := alias_,
             CreatedAt := db.clock }],
        next_url_id := db.next_url_id + 1 },
     .ok db.next_url_id)

/-- Modelled from the spec: the statement
`SELECT id, original_url, alias, created_at FROM short_urls WHERE alias = $1` read through
`QueryRowContext`, which yields the first matching row or `sql.ErrNoRows`. -/
def selectShortURL (db : DB) (alias_ : String) : Except GoError entity.URL :=
  match db.short_urls.find? (fun s => decide (s.Alias = alias_)) with
  | some row => .ok row
  | none => .error ErrNoRows

/-- Modelled from the spec: the statement
`INSERT INTO click_logs (url_id, user_agent, ip_address) VALUES ($1, $2, $3)`.
The column `url_id` references `short_urls`: a click whose url_id is no stored id is
refused (SQLSTATE 23503, foreign_key_violation); otherwise one row is appended. -/
def insertClick (db : DB) (url_id : Int) (user_agent ip_address : String) :
    DB × Option GoError :=
  if db.short_urls.any (fun s => decide (s.ID = url_id)) then
    ({ db with
        click_logs := db.click_logs ++
          [{ ID := db.next_click_id, URLID := url_id, UserAgent := user_agent,
             IPAddress := ip_address, ClickedAt := db.clock }],
        next_click_id := db.next_click_id + 1 },
     none)
  else
    (db, some (GoError.pq "23503" "insert or update violates foreign key constraint"))

/-- The rows of `click_logs a JOIN short_urls s ON s.id = a.url_id WHERE s.alias = $1`:
one copy of the click for every url row it joins with. -/
def joinedClicks (db : DB) (alias_ : String) : List entity.ClickLogs :=
  db.click_logs.flatMap (fun a =>
    (db.short_urls.filter (fun s => decide (s.ID = a.URLID) && decide (s.Alias = alias_))).map
      (fun _ => a))

/-- Calendar order of two timestamps, field by field from the year down. -/
def timeCompare (a b : entity.Time) : Ordering :=
  (compare a.year b.year).then <| (compare a.month b.month).then <|
  (compare a.day b.day).then <| (compare a.hour b.hour).then <|
  (compare a.minute b.minute).then (compare a.second b.second)

/-- The order `ORDER BY ... DESC` on timestamps: `a` may stand before `b`. -/
def timeDesc (a b : entity.Time) : Prop := timeCompare a b ≠ Ordering.lt

instance : DecidableRel timeDesc := fun a b => by unfold timeDesc; exact inferInstance

/-- The order `ORDER BY user_agent DESC` on text, by code point. -/
def textDesc (a b : String) : Prop := ¬ a.data < b.data

instance : DecidableRel textDesc := fun a b => by unfold textDesc; exact inferInstance

/-- The SQL function `date_trunc('day', t)`. -/
def truncDay (t : entity.Time) : entity.Time :=
  { t with hour := 0, minute := 0, second := 0 }

/-- The SQL function `date_trunc('month', t)`. -/
def truncMonth (t : entity.Time) : entity.Time :=
  { t with day := 1, hour := 0, minute := 0, second := 0 }

/-- The shape `SELECT key, COUNT(*) ... GROUP BY key ORDER BY key DESC`: one output row per
distinct key, with the number of input rows under that key, keys descending. -/
def groupCount {κ : Type} [DecidableEq κ] (key : entity.ClickLogs → κ) (desc : κ → κ → Prop)
    [DecidableRel desc] (rows : List entity.ClickLogs) : List (κ × Int) :=
  (((rows.map key).dedup).insertionSort desc).map
    (fun k => (k, (((rows.map key).count k : Nat) : Int)))

/-- The method `URLRepo.SaveURL`. -/
def SaveURL (db : DB) (url : entity.URL) : DB × (Int × Option GoError) :=
  if url.Alias.utf8ByteSize > 64 then
    (db, 0, some (GoError.errorf
      (ErrAliasTooLarge.Error ++ ": alias too long (max 64 characters)")))
  else
    match insertShortURL db url.OriginalURL url.Alias with
    | (db', .ok id) => (db', id, none)
    | (db', .error err) =>
        match err.AsPq with
        | some code =>
            if code = "23505" then (db', 0, some (GoError.wrapf " " ErrAliasExists ""))
            else (db', 0, some (GoError.wrapf "" err ""))
        | none => (db', 0, some (GoError.wrapf "" err ""))

/-- The method `URLRepo.GetURL`. -/
def GetURL (db : DB) (url : entity.URL) : DB × (Option entity.URL × Option GoError) :=
  match selectShortURL db url.Alias with
  | .ok resultURL => (db, some resultURL, none)
  | .error err =>
      if GoError.Is err ErrNoRows then (db, none, some ErrUrlNotFound)
      else (db, none, some err)

/-- The method `URLRepo.SaveUserClick`. -/
def SaveUserClick (db : DB) (click : entity.ClickLogs) : DB × Option GoError :=
  insertClick db click.URLID click.UserAgent click.IPAddress

/-- The method `URLRepo.GetAnalytics`: the joined clicks, newest first. -/
def GetAnalytics (db : DB) (url : entity.URL) :
    DB × (List entity.ClickLogs × Option GoError) :=
  (db, (joinedClicks db url.Alias).insertionSort (fun a b => timeDesc a.ClickedAt b.ClickedAt),
    none)

/-- The method `URLRepo.CountClicks`: `SELECT COUNT(*)` over the joined clicks. -/
def CountClicks (db : DB) (url : entity.URL) : DB × (Int × Option GoError) :=
  (db, ((joinedClicks db url.Alias).length : Int), none)

/-- The method `URLRepo.StatisticDay`. -/
def StatisticDay (db : DB) (url : entity.URL) :
    DB × (List entity.StatDay × Option GoError) :=
  (db, (groupCount (fun a => truncDay a.ClickedAt) timeDesc (joinedClicks db url.Alias)).map
        (fun kc => { Day := kc.1, Count := kc.2 }), none)

/-- The method `URLRepo.StatisticMonth`. -/
def StatisticMonth (db : DB) (url : entity.URL) :
    DB × (List entity.StatMonth × Option GoError) :=
  (db, (groupCount (fun a => truncMonth a.ClickedAt) timeDesc (joinedClicks db url.Alias)).map
        (fun kc => { Month := kc.1, Count := kc.2 }), none)

/-- The method `URLRepo.StatisticAgent`. -/
def StatisticAgent (db : DB) (url : entity.URL) :
    DB × (List entity.StatAgent × Option GoError) :=
  (db, (groupCount (fun a => a.UserAgent) textDesc (joinedClicks db url.Alias)).map
        (fun kc => { UserAgent := kc.1, Count := kc.2 }), none)

/-- The constructor `NewURLRepo`: the struct `URLRepo` as an implementation of the
interface the service expects. -/
def NewURLRepo : service.URLRepo DB where
  SaveURL := SaveURL
  GetURL := GetURL
  SaveUserClick := SaveUserClick
  GetAnalytics := GetAnalytics
  StatisticDay := StatisticDay
  StatisticMonth := StatisticMonth
  StatisticAgent := StatisticAgent
  CountClicks := CountClicks

end postgres

/-! ## strings and net (standard library, used by the handlers) -/

namespace strings

/-- The predicate `unicode.IsSpace`. -/
def IsSpace (c : Char) : Bool :=
  c.toNat = 0x09 || c.toNat = 0x0A || c.toNat = 0x0B || c.toNat = 0x0C || c.toNat = 0x0D ||
  c.toNat = 0x20 || c.toNat = 0x85 || c.toNat = 0xA0 || c.toNat = 0x1680 ||
  (decide (0x2000 ≤ c.toNat) && decide (c.toNat ≤ 0x200A)) ||
  c.toNat = 0x2028 || c.toNat = 0x2029 || c.toNat = 0x202F || c.toNat = 0x205F ||
  c.toNat = 0x3000

/-- The function `strings.TrimSpace`: leading and trailing white space removed. -/
def TrimSpace (s : String) : String :=
  String.mk ((s.data.dropWhile IsSpace).rdropWhile IsSpace)

/-- The function `strings.TrimPrefix`: `s` without the leading `pre`, or `s` itself when it
does not start with `pre`. -/
def TrimPrefix (s pre : String) : String :=
  if pre.data.isPrefixOf s.data then String.mk (s.data.drop pre.data.length) else s

/-- Scanning loop of `Split` for a non-empty separator: `skip` counts the characters of a
separator occurrence still to be passed over. -/
def splitGo (sep : List Char) : List Char → Nat → List (List Char)
  | [], _ => [[]]
  | _ :: cs, skip + 1 => splitGo sep cs skip
  | c :: cs, 0 =>
      if sep.isPrefixOf (c :: cs) then [] :: splitGo sep cs (sep.length - 1)
      else
        match splitGo sep cs 0 with
        | [] => [[c]]
        | p :: ps => (c :: p) :: ps

/-- The function `strings.Split` for a non-empty separator: the pieces of `s` between
successive non-overlapping occurrences of `sep`, always at least one piece. -/
def Split (s sep : String) : List String :=
  (splitGo sep.data s.data 0).map String.mk

end strings

namespace net

deriving instance DecidableEq for Except

/-- The function `net.SplitHostPort`: `host:port`, `[host]:port` split at the last colon,
or an error (`missing port`, `too many colons`, a misplaced bracket). -/
def SplitHostPort (hostport : String) : Except GoError (String × String) :=
  let hp := hostport.data
  let addrErr : String → Except GoError (String × String) :=
    fun why => .error (GoError.other ("address " ++ hostport ++ ": " ++ why))
  if ¬ hp.contains ':' then addrErr "missing port in address"
  else
    let i := hp.length - 1 - hp.reverse.indexOf ':'
    let port := String.mk (hp.drop (i + 1))
    if hp.head? = some '[' then
      if ¬ hp.contains ']' then addrErr "missing ']' in address"
      else
        let e := hp.indexOf ']'
        if e + 1 = hp.length then addrErr "missing port in address"
        else if e + 1 = i then
          if (hp.drop 1).contains '[' then addrErr "unexpected '[' in address"
          else if (hp.drop (e + 1)).contains ']' then addrErr "unexpected ']' in address"
          else .ok (String.mk ((hp.take e).drop 1), port)
        else if hp.get? (e + 1) = some ':' then addrErr "too many colons in address"
        else addrErr "missing port in address"
    else
      let host := hp.take i
      if host.contains ':' then addrErr "too many colons in address"
      else if hp.contains '[' then addrErr "unexpected '[' in address"
      else if hp.contains ']' then addrErr "unexpected ']' in address"
      else .ok (String.mk host, port)

end net

/-! ## net/url, path and net/http (standard library, behind `http.Redirect`) -/

namespace net_url

/-- The helper `stringContainsCTLByte`: a byte below 0x20 or the byte 0x7f. -/
def stringContainsCTLByte (s : List Char) : Bool :=
  s.any (fun c => decide (c.toNat < 0x20) || decide (c.toNat = 0x7f))

/-- Scanning loop of `getScheme`; `seen` holds the characters passed so far, last first,
and is empty exactly at index 0. -/
def getSchemeGo (rawURL : List Char) : List Char → List Char →
    Except GoError (List Char × List Char)
  | [], _ => .ok ([], rawURL)
  | c :: cs, seen =>
      if (decide ('a' ≤ c) && decide (c ≤ 'z')) || (decide ('A' ≤ c) && decide (c ≤ 'Z')) then
        getSchemeGo rawURL cs (c :: seen)
      else if (decide ('0' ≤ c) && decide (c ≤ '9')) || c = '+' || c = '-' || c = '.' then
        if seen.isEmpty then .ok ([], rawURL) else getSchemeGo rawURL cs (c :: seen)
      else if c = ':' then
        if seen.isEmpty then .error (GoError.sentinel "missing protocol scheme")
        else .ok (seen.reverse, cs)
      else .ok ([], rawURL)

/-- The helper `getScheme`: the leading `scheme:` of a URL and what follows it, an empty
scheme with the whole text when there is none, or an error for a leading colon. -/
def getScheme (rawURL : List Char) : Except GoError (List Char × List Char) :=
  getSchemeGo rawURL rawURL []

/-- The helper `ishex`. -/
def ishex (c : Char) : Bool :=
  (decide ('0' ≤ c) && decide (c ≤ '9')) || (decide ('a' ≤ c) && decide (c ≤ 'f')) ||
  (decide ('A' ≤ c) && decide (c ≤ 'F'))

/-- Whether `unescape` succeeds on a path, a fragment or user information: every `%` is
followed by two hexadecimal digits. `need` counts the digits still owed to the last `%`. -/
def escapesGo : List Char → Nat → Bool
  | [], need => need == 0
  | c :: cs, need + 1 => ishex c && escapesGo cs need
  | c :: cs, 0 => if c = '%' then escapesGo cs 2 else escapesGo cs 0

/-- The helper `validUserinfo`. -/
def validUserinfo (s : List Char) : Bool :=
  s.all (fun r =>
    (decide ('A' ≤ r) && decide (r ≤ 'Z')) || (decide ('a' ≤ r) && decide (r ≤ 'z')) ||
    (decide ('0' ≤ r) && decide (r ≤ '9')) ||
    ['-', '.', '_', ':', '~', '!', '$', '&', '\'', '(', ')', '*', '+', ',', ';', '=', '%',
      '@'].contains r)

/-- Whether `parseAuthority` succeeds with an empty host: the authority is empty, or it is
valid user information followed by a final `@`. Any other authority gives a non-empty host
or an error. -/
def authorityHostEmpty (authority : List Char) : Bool :=
  if authority.isEmpty then true
  else if authority.getLast? = some '@' then
    validUserinfo authority.dropLast &&
      escapesGo (authority.dropLast.takeWhile (fun c => decide (c ≠ ':'))) 0 &&
      escapesGo ((authority.dropLast.dropWhile (fun c => decide (c ≠ ':'))).drop 1) 0
  else false

/-- Whether `url.Parse(rawURL)` returns a nil error and a URL whose `Scheme` and `Host`
are both empty: the test `http.Redirect` makes before it rewrites its target. The fragment
is cut off at the first `#`, control bytes are refused, `*` is a path, a scheme makes the
URL absolute, the query is cut off at the first `?`, a first path segment with a colon is
refused, `//authority` is read unless three slashes lead, and path and fragment must
unescape. -/
def relativeRef (rawURL : String) : Bool :=
  let u := rawURL.data.takeWhile (fun c => decide (c ≠ '#'))
  let frag := (rawURL.data.dropWhile (fun c => decide (c ≠ '#'))).drop 1
  if stringContainsCTLByte u then false
  else if u = ['*'] then escapesGo frag 0
  else
    match getScheme u with
    | .error _ => false
    | .ok (scheme, afterScheme) =>
        if !scheme.isEmpty then false
        else
          let rest := afterScheme.takeWhile (fun c => decide (c ≠ '?'))
          if !(['/'].isPrefixOf rest) &&
              (rest.takeWhile (fun c => decide (c ≠ '/'))).contains ':' then false
          else if ['/', '/'].isPrefixOf rest && !(['/', '/', '/'].isPrefixOf rest) then
            authorityHostEmpty ((rest.drop 2).takeWhile (fun c => decide (c ≠ '/'))) &&
              escapesGo ((rest.drop 2).dropWhile (fun c => decide (c ≠ '/'))) 0 &&
              escapesGo frag 0
          else escapesGo rest 0 && escapesGo frag 0

end net_url

namespace path

/-- The directory part of `path.Split`: the text up to and including the last slash. -/
def SplitDir (p : List Char) : List Char := p.rdropWhile (fun c => decide (c ≠ '/'))

/-- One element of a path taken in by `Clean`, on the elements kept so far (last first):
empty and `.` elements are dropped, `..` removes the last kept name, or is kept itself
when the path is not rooted and nothing but `..` elements precede it. -/
def cleanStep (rooted : Bool) (kept : List (List Char)) (e : List Char) : List (List Char) :=
  if e.isEmpty || e = ['.'] then kept
  else if e = ['.', '.'] then
    match kept with
    | [] => if rooted then [] else [e]
    | top :: below => if top = ['.', '.'] then e :: kept else below
  else e :: kept

/-- The function `path.Clean`: the shortest path that names the same place lexically. -/
def Clean (p : List Char) : List Char :=
  if p.isEmpty then ['.']
  else
    let rooted := decide (p.head? = some '/')
    let kept := ((strings.splitGo ['/'] p 0).foldl (cleanStep rooted) []).reverse
    let out := (if rooted then ['/'] else []) ++ List.intercalate ['/'] kept
    if out.isEmpty then ['.'] else out

end path

namespace net_http

/-- One hexadecimal digit, lower case, as `strconv.AppendInt` writes it in base 16. -/
def hexDigit (n : Nat) : Char := "0123456789abcdef".data.getD n '0'

/-- The UTF-8 bytes of a code point. -/
def utf8Bytes (n : Nat) : List Nat :=
  if n < 0x80 then [n]
  else if n < 0x800 then [0xC0 + n / 64, 0x80 + n % 64]
  else if n < 0x10000 then [0xE0 + n / 4096, 0x80 + n / 64 % 64, 0x80 + n % 64]
  else [0xF0 + n / 262144, 0x80 + n / 4096 % 64, 0x80 + n / 64 % 64, 0x80 + n % 64]

/-- The helper `hexEscapeNonASCII`: every byte from 0x80 up is written as `%` and two
hexadecimal digits, the ASCII bytes as they are. -/
def hexEscapeNonASCII (s : List Char) : List Char :=
  s.flatMap (fun c =>
    if c.toNat < 0x80 then [c]
    else (utf8Bytes c.toNat).flatMap (fun b => ['%', hexDigit (b / 16), hexDigit (b % 16)]))

/-- The `Location` header that `http.Redirect(w, r, url, code)` sets, `oldpath` being
`r.URL.Path`. A target that parses without scheme and host is made absolute: joined with
the directory of the request path unless it starts with a slash, then cleaned with
`path.Clean` up to its query, a trailing slash preserved. Every other target is kept.
Non-ASCII bytes are escaped at the end. -/
def Location (oldpath url : String) : String :=
  let target : List Char :=
    if net_url.relativeRef url then
      let oldpath1 := if oldpath = "" then ['/'] else oldpath.data
      let joined :=
        if url.data.head? ≠ some '/' then path.SplitDir oldpath1 ++ url.data else url.data
      let noQuery := joined.takeWhile (fun c => decide (c ≠ '?'))
      let query := joined.dropWhile (fun c => decide (c ≠ '?'))
      let cleaned := path.Clean noQuery
      (if noQuery.getLast? = some '/' && !(cleaned.getLast? = some '/')
        then cleaned ++ ['/'] else cleaned) ++ query
    else url.data
  String.mk (hexEscapeNonASCII target)

end net_http

/-! ## internal/handler -/

namespace handler

/-- The parts of `*http.Request` the handlers read: `r.URL.Path`, the header map (canonical
key to values), `r.RemoteAddr` and `r.Host`. -/
structure Request where
  Path : String := ""
  Header : List (String × List String) := []
  RemoteAddr : String := ""
  Host : String := ""
  deriving DecidableEq, Repr

/-- The method `Header.Get`: the first value under the key, or the empty string. -/
def Request.HeaderGet (r : Request) (key : String) : String :=
  match r.Header.find? (fun kv => decide (kv.1 = key)) with
  | some (_, v :: _) => v
  | _ => ""

/-- The method `Request.UserAgent`. -/
def Request.UserAgent (r : Request) : String := r.HeaderGet "User-Agent"

/-- What a handler writes: a JSON error envelope, a JSON payload, or a redirect, held as
the `Location` header that `http.Redirect` sets. -/
inductive Body where
  | error (msg : String)
  | shorten (resp : dto.ShortenResponse)
  | analytics (resp : dto.ShortenResponseAnalytics)
  | redirect (location : String)
  deriving DecidableEq, Repr

/-- The response written to `http.ResponseWriter`: status code and body. -/
structure Response where
  status : Nat
  body : Body
  deriving DecidableEq, Repr

/-- The helper `writeError`. -/
def writeError (msg : String) (code : Nat) : Response := ⟨code, Body.error msg⟩

/-- The call `http.Redirect(w, r, url, code)`: the status code, and the `Location` header
that net/http derives from the target and the request path. -/
def httpRedirect (r : Request) (url : String) (code : Nat) : Response :=
  ⟨code, Body.redirect (net_http.Location r.Path url)⟩

/-- The struct `Handler`. -/
structure Handler (σ : Type) where
  svc : service.ShortenerService σ

/-- The function `isValidAlias` of the handler package: a loop over the runes of `a`. -/
def isValidAlias (a : String) : Bool :=
  a.data.all (fun r =>
    !(!(decide ('a' ≤ r) && decide (r ≤ 'z')) &&
      !(decide ('A' ≤ r) && decide (r ≤ 'Z')) &&
      !(decide ('0' ≤ r) && decide (r ≤ '9')) &&
      decide (r ≠ '-') && decide (r ≠ '_')))

/-- The function `getIP`. -/
def getIP (r : Request) : String :=
  let xff := r.HeaderGet "X-Forwarded-For"
  if xff ≠ "" then
    strings.TrimSpace ((strings.Split xff ",").headD "")
  else
    match net.SplitHostPort r.RemoteAddr with
    | .error _ => r.RemoteAddr
    | .ok (ip, _) => ip

/-- The handler `Redirect`. The third component lists the click of each goroutine the
handler starts with `go func() { _ = h.svc.SaveUserClick(...) }()`; these run detached
from the response (see `settle`). -/
def Redirect {σ : Type} (h : Handler σ) (st : σ) (r : Request) :
    σ × Response × List entity.ClickLogs :=
  let aliasV := strings.TrimSpace (strings.TrimPrefix r.Path "/s/")
  if aliasV = "" then (st, writeError "alias is required" 400, [])
  else
    match service.GetURL h.svc st { Alias := aliasV } with
    | (st', some urlEntity, none) =>
        (st', httpRedirect r urlEntity.OriginalURL 302,
          [{ UserAgent := r.UserAgent, IPAddress := getIP r, URLID := urlEntity.ID }])
    | (st', _, _) => (st', writeError "url not found" 404, [])

/-- Runs the detached goroutines of a handler: each calls `SaveUserClick` on the service
and drops the error. -/
def settle {σ : Type} (h : Handler σ) (st : σ) (clicks : List entity.ClickLogs) : σ :=
  clicks.foldl (fun w c => (service.SaveUserClick h.svc w c).1) st

/-- The handler `GetAnalytics`. -/
def GetAnalytics {σ : Type} (h : Handler σ) (st : σ) (r : Request) : σ × Response :=
  let aliasV := strings.TrimSpace (strings.TrimPrefix r.Path "/a/")
  if aliasV = "" then (st, writeError "alias is required" 400)
  else
    let urlEntity : entity.URL := { Alias := aliasV }
    match service.CountClicks h.svc st urlEntity with
    | (st1, _, some err) =>
        (st1, writeError ("failed to count clicks: " ++ err.Error) 500)
    | (st1, total, none) =>
        match service.GetAnalytics h.svc st1 urlEntity with
        | (st2, _, some err) =>
            (st2, writeError ("failed to get analytics: " ++ err.Error) 500)
        | (st2, records, none) =>
            let byDay := service.StatisticDay h.svc st2 urlEntity
            let byMonth := service.StatisticMonth h.svc byDay.1 urlEntity
            let byAgent := service.StatisticAgent h.svc byMonth.1 urlEntity
            (byAgent.1,
              ⟨200, Body.analytics
                { Alias := aliasV, ClicksTotal := total, Records := records,
                  ByDay := byDay.2.1, ByAgent := byAgent.2.1, ByMonth := byMonth.2.1 }⟩)

end handler

/-! ## internal/app.go -/

namespace internal

/-- The wiring of `Run`: the relational repository, the service over it with its cache
client (`none` for the nil cache that `NewShorterService` leaves), and the handler. -/
def wire (answers : Option (String → String × Option GoError)) : handler.Handler postgres.DB :=
  ⟨⟨postgres.NewURLRepo, answers.map redis.New⟩⟩

/-- The same wiring over recorded collaborators. -/
def wireSpied (answers : Option (String → String × Option GoError)) :
    handler.Handler (postgres.DB × List service.Call) :=
  ⟨service.spy (wire answers).svc⟩

end internal

/-! ## Example states -/

namespace example_data

/-- A store with the single row `abc123 ↦ https://example.com` under id 7, no clicks. -/
def storeAbc : postgres.DB :=
  { short_urls := [{ ID := 7, OriginalURL := "https://example.com", Alias := "abc123" }],
    next_url_id := 8 }

/-- A cache holding the pair `short:abc123 ↦ https://example.com`. -/
def cacheAbc : String → String × Option GoError :=
  redis.holding [("short:abc123", "https://example.com")]

/-- The store `storeAbc` after one visit of `abc123`. -/
def storeAbcClicked : postgres.DB :=
  { storeAbc with
    click_logs := [{ ID := 1, URLID := 7, UserAgent := "curl/8.5", IPAddress := "10.0.0.9",
                     ClickedAt := ⟨2024, 5, 17, 10, 30, 0⟩ }],
    next_click_id := 2 }

end example_data

/-! ## Theorems -/

section Theorems

open service

/-! ### Helper lemmas -/

/-- The code points of the alias class lie between `-` (45) and `z` (122). -/
theorem aliasClass_bounds (c : Char) (h : aliasClass c = true) :
    45 ≤ c.toNat ∧ c.toNat ≤ 122 := by
  have hle : ∀ d : Char, c ≤ d → c.toNat ≤ d.toNat := fun d hd => hd
  have hge : ∀ d : Char, d ≤ c → d.toNat ≤ c.toNat := fun d hd => hd
  simp only [aliasClass, Bool.or_eq_true, Bool.and_eq_true, decide_eq_true_eq] at h
  rcases h with (((⟨h1, h2⟩ | ⟨h1, h2⟩) | ⟨h1, h2⟩) | h) | h
  · exact ⟨le_trans (by decide) (hge _ h1), le_trans (hle _ h2) (by decide)⟩
  · exact ⟨le_trans (by decide) (hge _ h1), le_trans (hle _ h2) (by decide)⟩
  · exact ⟨le_trans (by decide) (hge _ h1), le_trans (hle _ h2) (by decide)⟩
  · subst h; decide
  · subst h; decide

/-- A character of the alias class is ASCII: one byte in UTF-8. -/
theorem aliasClass_utf8Size (c : Char) (h : aliasClass c = true) : c.utf8Size = 1 := by
  have h127 : c.val.toNat ≤ 127 := le_trans (aliasClass_bounds c h).2 (by decide)
  unfold Char.utf8Size
  have h2 : c.val ≤ UInt32.ofNatCore 127 (by decide) := h127
  rw [if_pos h2]

/-- No character of the alias class is white space. -/
theorem aliasClass_not_IsSpace (c : Char) (h : aliasClass c = true) :
    strings.IsSpace c = false := by
  obtain ⟨h1, h2⟩ := aliasClass_bounds c h
  simp only [strings.IsSpace, Bool.or_eq_false_iff, Bool.and_eq_false_iff,
    decide_eq_false_iff_not]
  omega

/-- Dropping a leading run of characters none of which is in the text drops nothing. -/
theorem dropWhile_none {α : Type} (p : α → Bool) (l : List α) (h : ∀ x ∈ l, p x = false) :
    l.dropWhile p = l := by
  cases l with
  | nil => rfl
  | cons x t => simp [List.dropWhile, h x (List.mem_cons_self x t)]

/-- A valid alias is non-empty and has no surrounding white space for `TrimSpace` to
remove. -/
theorem isValidAlias_TrimSpace (a : String) (h : isValidAlias a = true) :
    a ≠ "" ∧ strings.TrimSpace a = a := by
  simp only [isValidAlias, Bool.and_eq_true, List.all_eq_true] at h
  obtain ⟨hne, hall⟩ := h
  constructor
  · intro h0
    subst h0
    simp at hne
  · have hns : ∀ c ∈ a.data, strings.IsSpace c = false :=
      fun c hc => aliasClass_not_IsSpace c (hall c hc)
    have hrev : ∀ c ∈ a.data.reverse, strings.IsSpace c = false :=
      fun c hc => hns c (List.mem_reverse.mp hc)
    unfold strings.TrimSpace
    rw [dropWhile_none _ _ hns, List.rdropWhile, dropWhile_none _ _ hrev, List.reverse_reverse]

/-- When the random source fails, the alias is the six clock digits, which pass the alias
pattern. -/
theorem generateAlias_clock_fallback (amb : Ambient) (e : GoError)
    (hread : amb.randRead = .error e) :
    generateAlias 8 amb = Format150405 amb.now ∧ (generateAlias 8 amb).length = 6 ∧
    isValidAlias (generateAlias 8 amb) = true := by
  have hgen : generateAlias 8 amb = Format150405 amb.now := by
    simp [generateAlias, hread]
  have hdigit : ∀ d, d < 10 → aliasClass (Char.ofNat (48 + d)) = true := by decide
  have h10 : ∀ n : Nat, n % 10 < 10 := fun n => Nat.mod_lt _ (by decide)
  refine ⟨hgen, by rw [hgen]; rfl, ?_⟩
  rw [hgen]
  simp [isValidAlias, Format150405, pad2, hdigit _ (h10 _)]


/-- On text of the alias class the byte count `len` is the number of characters. -/
theorem utf8Len_of_aliasClass (l : List Char) (h : l.all aliasClass = true) :
    String.utf8Len l = l.length := by
  induction l with
  | nil => rfl
  | cons c cs ih =>
    simp only [List.all_cons, Bool.and_eq_true] at h
    simp [String.utf8Len_cons, ih h.2, aliasClass_utf8Size c h.1]

/-- A valid alias is as many bytes as characters. -/
theorem utf8ByteSize_of_isValidAlias (a : String) (h : isValidAlias a = true) :
    a.utf8ByteSize = a.length := by
  simp only [isValidAlias, Bool.and_eq_true] at h
  cases a with
  | mk l => exact utf8Len_of_aliasClass l h.2

/-- Saving under an alias of at most 64 bytes that no row carries adds one row and returns
its id. -/
theorem SaveURL_fresh (db : postgres.DB) (url : entity.URL)
    (hlen : url.Alias.utf8ByteSize ≤ 64)
    (hfresh : ∀ r ∈ db.short_urls, r.Alias ≠ url.Alias) :
    postgres.SaveURL db url =
      ({ db with
          short_urls := db.short_urls ++
            [{ ID := db.next_url_id, OriginalURL := url.OriginalURL, Alias := url.Alias,
               CreatedAt := db.clock }],
          next_url_id := db.next_url_id + 1 },
       db.next_url_id, none) := by
  have hany : db.short_urls.any (fun s => decide (s.Alias = url.Alias)) = false := by
    rw [List.any_eq_false]
    intro r hr
    simpa using hfresh r hr
  simp [postgres.SaveURL, postgres.insertShortURL, hany, Nat.not_lt.mpr hlen, GoError.AsPq]

/-- Saving under an alias of at most 64 bytes that a row already carries changes nothing
and returns id 0 with `ErrAliasExists` wrapped. -/
theorem SaveURL_conflict (db : postgres.DB) (url : entity.URL)
    (hlen : url.Alias.utf8ByteSize ≤ 64)
    (hrow : ∃ r ∈ db.short_urls, r.Alias = url.Alias) :
    postgres.SaveURL db url =
      (db, 0, some (GoError.wrapf " " postgres.ErrAliasExists "")) := by
  have hany : db.short_urls.any (fun s => decide (s.Alias = url.Alias)) = true := by
    rw [List.any_eq_true]
    obtain ⟨r, hr, h⟩ := hrow
    exact ⟨r, hr, by simpa using h⟩
  simp [postgres.SaveURL, postgres.insertShortURL, hany, Nat.not_lt.mpr hlen, GoError.AsPq]

/-- Trimming the prefix a path was built with gives back the rest. -/
theorem TrimPrefix_append (pre a : String) : strings.TrimPrefix (pre ++ a) pre = a := by
  have h : pre.data.isPrefixOf (pre ++ a).data = true := by
    rw [List.isPrefixOf_iff_prefix, String.data_append]
    exact List.prefix_append _ _
  simp [strings.TrimPrefix, h, String.data_append]

/-- The storage `GetURL` reports `ErrUrlNotFound` for an alias that no row carries. -/
theorem GetURL_absent (db : postgres.DB) (url : entity.URL)
    (habsent : ∀ r ∈ db.short_urls, r.Alias ≠ url.Alias) :
    postgres.GetURL db url = (db, none, some postgres.ErrUrlNotFound) := by
  have h : db.short_urls.find? (fun s => decide (s.Alias = url.Alias)) = none := by
    rw [List.find?_eq_none]
    intro r hr
    simpa using habsent r hr
  have hIs : GoError.Is postgres.ErrNoRows postgres.ErrNoRows = true := by decide
  simp [postgres.GetURL, postgres.selectShortURL, h, hIs]

/-- The service read on the relational store when no cache answers: the result of the
storage `GetURL`. -/
theorem service_GetURL_uncached (answers : Option (String → String × Option GoError))
    (db : postgres.DB) (url : entity.URL)
    (hmiss : ∀ f, answers = some f → (f ("short:" ++ url.Alias)).2 ≠ none) :
    service.GetURL ⟨postgres.NewURLRepo, answers.map redis.New⟩ db url
      = postgres.GetURL db url := by
  cases answers with
  | none => simp [service.GetURL, postgres.NewURLRepo]
  | some f =>
    have h := hmiss f rfl
    rcases hf : f ("short:" ++ url.Alias) with ⟨v, e⟩
    rw [hf] at h
    cases e with
    | none => exact absurd rfl h
    | some e => simp [service.GetURL, redis.New, hf, postgres.NewURLRepo]

/-- The service read on the relational store when the cache answers with a value. -/
theorem service_GetURL_cached (f : String → String × Option GoError)
    (db : postgres.DB) (url : entity.URL) (v : String)
    (hhit : f ("short:" ++ url.Alias) = (v, none)) :
    service.GetURL ⟨postgres.NewURLRepo, some (redis.New f)⟩ db url
      = (db, some { Alias := url.Alias, OriginalURL := v }, none) := by
  simp [service.GetURL, redis.New, hhit]

/-- The counts of a grouped query add up to the number of grouped rows. -/
theorem groupCount_sum {κ : Type} [DecidableEq κ] (key : entity.ClickLogs → κ)
    (desc : κ → κ → Prop) [DecidableRel desc] (rows : List entity.ClickLogs) :
    ((postgres.groupCount key desc rows).map (fun kc => kc.2)).sum = (rows.length : Int) := by
  have hperm : (((rows.map key).dedup).insertionSort desc).Perm ((rows.map key).dedup) :=
    List.perm_insertionSort desc _
  have hcount := List.sum_map_count_dedup_eq_length (rows.map key)
  rw [List.length_map] at hcount
  unfold postgres.groupCount
  rw [List.map_map]
  have hfun : ((fun kc : κ × Int => kc.2) ∘
      fun k => (k, (((rows.map key).count k : Nat) : Int)))
      = fun k => (((rows.map key).count k : Nat) : Int) := rfl
  rw [hfun, (hperm.map _).sum_eq, ← hcount, Nat.cast_list_sum, List.map_map]
  rfl

/-- Every entry of the base64url alphabet is of the alias class. -/
theorem enc_aliasClass (i : Nat) : aliasClass (base64.enc (i % 64)) = true := by
  have h : ∀ j, j < 64 → aliasClass (base64.enc j) = true := by decide
  exact h _ (Nat.mod_lt _ (by decide))

/-- Every character the encoder writes is of the alias class. -/
theorem EncodeToString_aliasClass (b : List Nat) :
    (base64.EncodeToString b).all aliasClass = true := by
  induction b using base64.EncodeToString.induct with
  | case1 a b c rest ih =>
    simp only [base64.EncodeToString, List.all_cons, Bool.and_eq_true]
    exact ⟨enc_aliasClass _, enc_aliasClass _, enc_aliasClass _, enc_aliasClass _, ih⟩
  | case2 a b =>
    simp only [base64.EncodeToString, List.all_cons, Bool.and_eq_true, List.all_nil]
    exact ⟨enc_aliasClass _, enc_aliasClass _, enc_aliasClass _, trivial⟩
  | case3 a =>
    simp only [base64.EncodeToString, List.all_cons, Bool.and_eq_true, List.all_nil]
    exact ⟨enc_aliasClass _, enc_aliasClass _, trivial⟩
  | case4 => rfl

/-- The unpadded encoding of `n` bytes has `(4 n + 2) / 3` characters. -/
theorem EncodeToString_length (b : List Nat) :
    (base64.EncodeToString b).length = (4 * b.length + 2) / 3 := by
  induction b using base64.EncodeToString.induct with
  | case1 a b c rest ih =>
    simp only [base64.EncodeToString, List.length_cons, ih]
    omega
  | case2 a b => simp [base64.EncodeToString]
  | case3 a => simp [base64.EncodeToString]
  | case4 => rfl

/-- The storage `SaveURL` never returns the validation error of the service. -/
theorem SaveURL_error_ne_ErrAliasIncorrect (db : postgres.DB) (url : entity.URL) :
    (postgres.SaveURL db url).2.2 ≠ some ErrAliasIncorrect := by
  unfold postgres.SaveURL
  split
  · simp [ErrAliasIncorrect]
  · split
    · simp [ErrAliasIncorrect]
    · split
      · split <;> simp [ErrAliasIncorrect]
      · simp [ErrAliasIncorrect]

/-- With the random source delivering, the generated alias passes the alias pattern. -/
theorem generateAlias_valid (amb : Ambient) (b : List Nat)
    (hread : amb.randRead = .ok b) (hlen : b.length = 8) :
    generateAlias 8 amb = String.mk ((base64.EncodeToString b).take 8) ∧
    (generateAlias 8 amb).length = 8 ∧
    (generateAlias 8 amb).data.all aliasClass = true := by
  have hgen : generateAlias 8 amb = String.mk ((base64.EncodeToString b).take 8) := by
    simp [generateAlias, hread]
  have hl : (base64.EncodeToString b).length = 11 := by
    rw [EncodeToString_length, hlen]
  refine ⟨hgen, ?_, ?_⟩
  · rw [hgen, String.length, List.length_take, hl]
    rfl
  · rw [hgen]
    have hall := EncodeToString_aliasClass b
    rw [List.all_eq_true] at hall ⊢
    intro c hc
    exact hall c (List.mem_of_mem_take hc)

/-- The first piece of a split at commas is the text before the first comma. -/
theorem splitGo_comma_head (l : List Char) :
    ∃ rest, strings.splitGo [','] l 0 = l.takeWhile (fun c => decide (c ≠ ',')) :: rest := by
  induction l with
  | nil => exact ⟨[], rfl⟩
  | cons c cs ih =>
    obtain ⟨rest, hrest⟩ := ih
    by_cases hc : c = ','
    · subst hc
      exact ⟨strings.splitGo [','] cs 0, by simp [strings.splitGo, List.isPrefixOf]⟩
    · have hc2 : (',' == c) = false := by
        simp only [beq_eq_false_iff_ne, ne_eq]
        exact fun h => hc h.symm
      refine ⟨rest, ?_⟩
      simp [strings.splitGo, List.isPrefixOf, hc2, hrest, hc]

/-- The element `parts[0]` of `strings.Split(s, ",")`. -/
theorem Split_comma_headD (s : String) :
    (strings.Split s ",").headD "" = String.mk (s.data.takeWhile (fun c => decide (c ≠ ','))) := by
  obtain ⟨rest, hrest⟩ := splitGo_comma_head s.data
  have hsep : ("," : String).data = [','] := rfl
  simp [strings.Split, hsep, hrest]

/-- A target with a scheme is not a relative reference. -/
theorem relativeRef_of_scheme (url : String) (scheme rest : List Char)
    (h : net_url.getScheme (url.data.takeWhile (fun c => decide (c ≠ '#')))
      = .ok (scheme, rest))
    (hs : scheme ≠ []) : net_url.relativeRef url = false := by
  unfold net_url.relativeRef
  simp only []
  generalize url.data.takeWhile (fun c => decide (c ≠ '#')) = u at h
  split
  · rfl
  · split
    · rename_i hstar
      rw [hstar] at h
      have hget : net_url.getScheme ['*'] = .ok ([], ['*']) := by decide
      rw [hget] at h
      cases h
      exact absurd rfl hs
    · rw [h]
      cases scheme with
      | nil => exact absurd rfl hs
      | cons c cs => rfl

/-- C1: for a request with a non-empty URL and a non-empty custom alias `a`: when every
character of `a` is in `[A-Za-z0-9_-]`, `CreateShortURL` makes exactly one collaborator
call, `SaveURL` with alias `a` and the URL of the request, leaves the store as that save
left it, and returns `a` when the save succeeds (and the error of the save otherwise);
when some character is outside the class it returns `ErrAliasIncorrect`, makes no call and
leaves the store unchanged. -/
theorem CreateShortURL_custom_alias {σ : Type} (s : ShortenerService σ) (amb : Ambient)
    (st : σ) (req : dto.CreateURLShorterRequest)
    (hurl : req.URL ≠ "") (hal : req.CustomAlias ≠ "") :
    (req.CustomAlias.data.all aliasClass = true →
      (CreateShortURL (spy s) amb (st, []) req).1 =
          ((s.URLRepo.SaveURL st { Alias := req.CustomAlias, OriginalURL := req.URL }).1,
           [Call.saveURL { Alias := req.CustomAlias, OriginalURL := req.URL }]) ∧
      ((s.URLRepo.SaveURL st { Alias := req.CustomAlias, OriginalURL := req.URL }).2.2 = none →
        (CreateShortURL (spy s) amb (st, []) req).2 = (req.CustomAlias, none)) ∧
      (∀ err,
        (s.URLRepo.SaveURL st { Alias := req.CustomAlias, OriginalURL := req.URL }).2.2
            = some err →
        (CreateShortURL (spy s) amb (st, []) req).2 = ("", some err))) ∧
    (req.CustomAlias.data.all aliasClass = false →
      CreateShortURL (spy s) amb (st, []) req = ((st, []), ("", some ErrAliasIncorrect))) := by
  have hne : req.CustomAlias.data.isEmpty = false := by
    cases hd : req.CustomAlias.data with
    | nil => exact absurd (String.ext hd) hal
    | cons c cs => rfl
  constructor
  · intro hall
    have hv : isValidAlias req.CustomAlias = true := by simp [isValidAlias, hne, hall]
    rcases hsave : s.URLRepo.SaveURL st { Alias := req.CustomAlias, OriginalURL := req.URL }
      with ⟨st', id, _ | err⟩ <;>
    simp [CreateShortURL, hurl, hal, hv, spy, spyRepo, logged, hsave]
  · intro hall
    have hv : isValidAlias req.CustomAlias = false := by simp [isValidAlias, hne, hall]
    simp [CreateShortURL, hurl, hal, hv]

/-- Witness for C1 on the relational store, empty at the start: the alias `My-Link_1` is
saved and returned, the alias `bad alias!` is refused with nothing called. -/
theorem CreateShortURL_custom_alias_witness :
    (CreateShortURL (spy (NewShorterService postgres.NewURLRepo)) ⟨.ok [], entity.Time.zero⟩
        (({} : postgres.DB), [])
        { URL := "https://example.com", CustomAlias := "My-Link_1" }).2 = ("My-Link_1", none) ∧
    CreateShortURL (spy (NewShorterService postgres.NewURLRepo)) ⟨.ok [], entity.Time.zero⟩
        (({} : postgres.DB), [])
        { URL := "https://example.com", CustomAlias := "bad alias!" }
      = ((({} : postgres.DB), []), ("", some ErrAliasIncorrect)) :=
  ⟨((CreateShortURL_custom_alias (NewShorterService postgres.NewURLRepo)
        ⟨.ok [], entity.Time.zero⟩ ({} : postgres.DB)
        { URL := "https://example.com", CustomAlias := "My-Link_1" }
        (by decide) (by decide)).1 (by decide)).2.1 (by decide),
   (CreateShortURL_custom_alias (NewShorterService postgres.NewURLRepo)
        ⟨.ok [], entity.Time.zero⟩ ({} : postgres.DB)
        { URL := "https://example.com", CustomAlias := "bad alias!" }
        (by decide) (by decide)).2 (by decide)⟩

/-- C2: on the relational store, for a valid custom alias `a` of at most 64 characters
that no row carries and non-empty URLs `u1`, `u2`: the first `CreateShortURL(u1, a)`
returns `a`; the second `CreateShortURL(u2, a)` fails with an error that `errors.Is`
recognises as `ErrAliasExists` and leaves the store as the first call left it; afterwards
the rows under alias `a` are exactly one, the row of the first call with `original_url`
`u1`. -/
theorem CreateShortURL_same_alias_twice (cache : Option (RedisClient postgres.DB))
    (amb1 amb2 : Ambient) (db : postgres.DB) (a u1 u2 : String)
    (hvalid : isValidAlias a = true) (hlen : a.length ≤ 64)
    (hfresh : ∀ r ∈ db.short_urls, r.Alias ≠ a)
    (hu1 : u1 ≠ "") (hu2 : u2 ≠ "") :
    (CreateShortURL ⟨postgres.NewURLRepo, cache⟩ amb1 db { URL := u1, CustomAlias := a }).2
        = (a, none) ∧
    (∃ err,
      (CreateShortURL ⟨postgres.NewURLRepo, cache⟩ amb2
          (CreateShortURL ⟨postgres.NewURLRepo, cache⟩ amb1 db
            { URL := u1, CustomAlias := a }).1
          { URL := u2, CustomAlias := a })
        = ((CreateShortURL ⟨postgres.NewURLRepo, cache⟩ amb1 db
              { URL := u1, CustomAlias := a }).1, ("", some err)) ∧
      GoError.Is err postgres.ErrAliasExists = true) ∧
    (CreateShortURL ⟨postgres.NewURLRepo, cache⟩ amb2
        (CreateShortURL ⟨postgres.NewURLRepo, cache⟩ amb1 db
          { URL := u1, CustomAlias := a }).1
        { URL := u2, CustomAlias := a }).1.short_urls.filter (fun r => decide (r.Alias = a))
      = [{ ID := db.next_url_id, OriginalURL := u1, Alias := a, CreatedAt := db.clock }] := by
  have hbytes : a.utf8ByteSize ≤ 64 := by
    rw [utf8ByteSize_of_isValidAlias a hvalid]; exact hlen
  have hane : a ≠ "" := by
    intro h; subst h; simp [isValidAlias] at hvalid
  have h1 := SaveURL_fresh db { Alias := a, OriginalURL := u1 } hbytes hfresh
  have hfirst : CreateShortURL ⟨postgres.NewURLRepo, cache⟩ amb1 db
      { URL := u1, CustomAlias := a } =
      ({ db with
          short_urls := db.short_urls ++
            [{ ID := db.next_url_id, OriginalURL := u1, Alias := a, CreatedAt := db.clock }],
          next_url_id := db.next_url_id + 1 }, (a, none)) := by
    simp [CreateShortURL, hu1, hane, hvalid, postgres.NewURLRepo, h1]
  have h2 := SaveURL_conflict
    { db with
        short_urls := db.short_urls ++
          [{ ID := db.next_url_id, OriginalURL := u1, Alias := a, CreatedAt := db.clock }],
        next_url_id := db.next_url_id + 1 }
    { Alias := a, OriginalURL := u2 } hbytes
    ⟨{ ID := db.next_url_id, OriginalURL := u1, Alias := a, CreatedAt := db.clock },
      by simp, rfl⟩
  have hsecond : CreateShortURL ⟨postgres.NewURLRepo, cache⟩ amb2
      { db with
        short_urls := db.short_urls ++
          [{ ID := db.next_url_id, OriginalURL := u1, Alias := a, CreatedAt := db.clock }],
        next_url_id := db.next_url_id + 1 }
      { URL := u2, CustomAlias := a } =
      ({ db with
        short_urls := db.short_urls ++
          [{ ID := db.next_url_id, OriginalURL := u1, Alias := a, CreatedAt := db.clock }],
        next_url_id := db.next_url_id + 1 },
        ("", some (GoError.wrapf " " postgres.ErrAliasExists ""))) := by
    simp [CreateShortURL, hu2, hane, hvalid, postgres.NewURLRepo, h2]
  have hold : db.short_urls.filter (fun r => decide (r.Alias = a)) = [] := by
    rw [List.filter_eq_nil_iff]
    intro r hr
    simpa using hfresh r hr
  rw [hfirst]
  refine ⟨rfl, ⟨_, hsecond, by decide⟩, ?_⟩
  rw [hsecond]
  simp [List.filter_append, hold]

/-- Witness for C2: alias `My-Link_1` created twice on the empty store. -/
theorem CreateShortURL_same_alias_twice_witness :
    (CreateShortURL ⟨postgres.NewURLRepo, none⟩ ⟨.ok [], entity.Time.zero⟩
        (CreateShortURL ⟨postgres.NewURLRepo, none⟩ ⟨.ok [], entity.Time.zero⟩
          ({} : postgres.DB) { URL := "https://example.com", CustomAlias := "My-Link_1" }).1
        { URL := "https://example.org", CustomAlias := "My-Link_1" }).1.short_urls.filter
          (fun r => decide (r.Alias = "My-Link_1"))
      = [{ ID := 1, OriginalURL := "https://example.com", Alias := "My-Link_1",
           CreatedAt := entity.Time.zero }] :=
  (CreateShortURL_same_alias_twice none ⟨.ok [], entity.Time.zero⟩ ⟨.ok [], entity.Time.zero⟩
    ({} : postgres.DB) "My-Link_1" "https://example.com" "https://example.org"
    (by decide) (by decide) (by simp) (by decide) (by decide)).2.2

/-- C3: the cache-aside read of the service, with its collaborator calls recorded. Without
a cache the only call is the storage `GetURL` and its result is returned as it is. With a
cache the key looked up is `"short:" ++ alias`; a lookup that returns a value `v` with a
nil error gives the entity with that alias, `OriginalURL = v`, `ID = 0` and the zero
`CreatedAt`, and storage is not called; a lookup that returns an error is followed by the
storage `GetURL`, whose result (entity or error) is returned as it is. -/
theorem GetURL_cache_aside {σ : Type} (s : ShortenerService σ) (st : σ) (url : entity.URL) :
    (s.Cache = none →
      GetURL (spy s) (st, []) url =
        (((s.URLRepo.GetURL st url).1, [Call.getURL url]), (s.URLRepo.GetURL st url).2)) ∧
    (∀ c, s.Cache = some c →
      ((c.Get st ("short:" ++ url.Alias)).2.2 = none →
        GetURL (spy s) (st, []) url =
          (((c.Get st ("short:" ++ url.Alias)).1, [Call.cacheGet ("short:" ++ url.Alias)]),
           (some { ID := 0, OriginalURL := (c.Get st ("short:" ++ url.Alias)).2.1,
                   Alias := url.Alias, CreatedAt := entity.Time.zero }, none))) ∧
      ((c.Get st ("short:" ++ url.Alias)).2.2 ≠ none →
        GetURL (spy s) (st, []) url =
          (((s.URLRepo.GetURL (c.Get st ("short:" ++ url.Alias)).1 url).1,
            [Call.cacheGet ("short:" ++ url.Alias), Call.getURL url]),
           (s.URLRepo.GetURL (c.Get st ("short:" ++ url.Alias)).1 url).2))) := by
  refine ⟨fun hc => ?_, fun c hc => ⟨fun hhit => ?_, fun hmiss => ?_⟩⟩
  · simp [GetURL, spy, spyRepo, logged, hc]
  · rcases hget : c.Get st ("short:" ++ url.Alias) with ⟨st', v, e⟩
    rw [hget] at hhit
    simp only at hhit
    subst hhit
    simp [GetURL, spy, spyRepo, spyCache, logged, hc, hget]
  · rcases hget : c.Get st ("short:" ++ url.Alias) with ⟨st', v, e⟩
    rw [hget] at hmiss
    cases e with
    | none => exact absurd rfl hmiss
    | some e => simp [GetURL, spy, spyRepo, spyCache, logged, hc, hget]

/-- Witness for C3: a cache holding `short:abc123` answers without the store being asked,
and a miss on `short:zzz` falls through to the (empty) store, which reports not found. -/
theorem GetURL_cache_aside_witness :
    GetURL (spy ⟨postgres.NewURLRepo,
          some (redis.New (redis.holding [("short:abc123", "https://example.com")]))⟩)
        (({} : postgres.DB), []) { Alias := "abc123" }
      = ((({} : postgres.DB), [Call.cacheGet "short:abc123"]),
         (some { Alias := "abc123", OriginalURL := "https://example.com" }, none)) ∧
    GetURL (spy ⟨postgres.NewURLRepo,
          some (redis.New (redis.holding [("short:abc123", "https://example.com")]))⟩)
        (({} : postgres.DB), []) { Alias := "zzz" }
      = ((({} : postgres.DB), [Call.cacheGet "short:zzz", Call.getURL { Alias := "zzz" }]),
         (none, some postgres.ErrUrlNotFound)) :=
  ⟨((GetURL_cache_aside ⟨postgres.NewURLRepo,
          some (redis.New (redis.holding [("short:abc123", "https://example.com")]))⟩
        ({} : postgres.DB) { Alias := "abc123" }).2 _ rfl).1 (by decide),
   ((GetURL_cache_aside ⟨postgres.NewURLRepo,
          some (redis.New (redis.holding [("short:abc123", "https://example.com")]))⟩
        ({} : postgres.DB) { Alias := "zzz" }).2 _ rfl).2 (by decide)⟩

/-- On a cache hit the click carries no id: with `abc123 ↦ https://example.com` stored
under id 7 and the cache holding `short:abc123 ↦ https://example.com`, `Redirect` on
`/s/abc123` answers 302 to the URL but the click it hands to `SaveUserClick` has `url_id`
0, not 7, and the store refuses it, so no click row appears. -/
theorem Redirect_cache_hit_click_url_id_zero :
    handler.Redirect (internal.wire (some example_data.cacheAbc)) example_data.storeAbc
        { Path := "/s/abc123" }
      = (example_data.storeAbc, ⟨302, handler.Body.redirect "https://example.com"⟩,
          [{ URLID := 0, UserAgent := "", IPAddress := "" }]) ∧
    (handler.settle (internal.wire (some example_data.cacheAbc)) example_data.storeAbc
        (handler.Redirect (internal.wire (some example_data.cacheAbc))
          example_data.storeAbc { Path := "/s/abc123" }).2.2).click_logs = [] ∧
    example_data.storeAbc.short_urls.map (fun r => r.ID) = [7] := by
  decide

/-- The redirect on a cache hit: when the lookup of `"short:" ++ a` returns a value `v`,
`Redirect` on `"/s/" ++ a` answers 302 with the `Location` that net/http derives from
`v`, whatever the store holds. -/
theorem Redirect_cache_hit_target (f : String → String × Option GoError)
    (db : postgres.DB) (r : handler.Request) (a v : String)
    (hpath : r.Path = "/s/" ++ a) (hne : a ≠ "") (htrim : strings.TrimSpace a = a)
    (hhit : f ("short:" ++ a) = (v, none)) :
    (handler.Redirect (internal.wire (some f)) db r).2.1
      = ⟨302, handler.Body.redirect (net_http.Location r.Path v)⟩ := by
  have halias1 : strings.TrimSpace (strings.TrimPrefix r.Path "/s/") = a := by
    rw [hpath, TrimPrefix_append, htrim]
  have hget := service_GetURL_cached f db { Alias := a } v hhit
  simp only [internal.wire, Option.map] at *
  simp [handler.Redirect, halias1, hne, hget, handler.httpRedirect]

/-- C5, as stated, fails in two ways. An alias with no row that the cache holds is
redirected: on the empty store with the cache holding `short:abc123`, `Redirect` on
`/s/abc123` answers 302 and starts a click. And the non-empty alias of one space is
trimmed to nothing: `Redirect` on `/s/ ` answers 400, not 404. -/
theorem Redirect_unstored_alias_not_404 :
    handler.Redirect (internal.wire (some example_data.cacheAbc)) ({} : postgres.DB)
        { Path := "/s/abc123" }
      = (({} : postgres.DB), ⟨302, handler.Body.redirect "https://example.com"⟩,
          [{ URLID := 0, UserAgent := "", IPAddress := "" }]) ∧
    handler.Redirect (internal.wire none) ({} : postgres.DB) { Path := "/s/ " }
      = (({} : postgres.DB), ⟨400, handler.Body.error "alias is required"⟩, []) := by
  decide

/-- C5, amended: for a non-empty alias `a` without surrounding white space that has no row
in the store, when no cache is configured or the lookup of `"short:" ++ a` returns an error,
`Redirect` on `"/s/" ++ a` answers 404, starts no `SaveUserClick` and leaves the store
unchanged. -/
theorem Redirect_unknown_alias (answers : Option (String → String × Option GoError))
    (db : postgres.DB) (r : handler.Request) (a : String)
    (hpath : r.Path = "/s/" ++ a) (hne : a ≠ "") (htrim : strings.TrimSpace a = a)
    (habsent : ∀ row ∈ db.short_urls, row.Alias ≠ a)
    (hmiss : ∀ f, answers = some f → (f ("short:" ++ a)).2 ≠ none) :
    handler.Redirect (internal.wire answers) db r
      = (db, ⟨404, handler.Body.error "url not found"⟩, []) := by
  have halias1 : strings.TrimSpace (strings.TrimPrefix r.Path "/s/") = a := by
    rw [hpath, TrimPrefix_append, htrim]
  have hget := service_GetURL_uncached answers db { Alias := a } hmiss
  rw [GetURL_absent db { Alias := a } habsent] at hget
  simp [handler.Redirect, internal.wire, halias1, hne, hget, handler.writeError]

/-- Witness for C5, amended: the alias `nope` on the store holding only `abc123`, behind a
cache that holds only `short:abc123`. -/
theorem Redirect_unknown_alias_witness :
    handler.Redirect (internal.wire (some example_data.cacheAbc)) example_data.storeAbc
        { Path := "/s/nope" }
      = (example_data.storeAbc, ⟨404, handler.Body.error "url not found"⟩, []) :=
  Redirect_unknown_alias (some example_data.cacheAbc) example_data.storeAbc
    { Path := "/s/nope" } "nope" (by decide) (by decide) (by decide) (by decide)
    (by intro f hf; cases hf; decide)

/-- C6, evaluated on the routed path `/analytics/abc123` with `abc123` stored and visited
once: the handler strips the prefix `/a/`, which the path does not have, so every service
query carries the alias `/analytics/abc123` and the 200 response reports that alias with
no clicks, while the store counts one click for `abc123`. -/
theorem GetAnalytics_routed_path_alias :
    handler.GetAnalytics (internal.wireSpied none) (example_data.storeAbcClicked, [])
        { Path := "/analytics/abc123" }
      = ((example_data.storeAbcClicked,
          [Call.countClicks { Alias := "/analytics/abc123" },
           Call.getAnalytics { Alias := "/analytics/abc123" },
           Call.statisticDay { Alias := "/analytics/abc123" },
           Call.statisticMonth { Alias := "/analytics/abc123" },
           Call.statisticAgent { Alias := "/analytics/abc123" }]),
         ⟨200, handler.Body.analytics
            { Alias := "/analytics/abc123", ClicksTotal := 0, Records := [],
              ByDay := [], ByMonth := [], ByAgent := [] }⟩) ∧
    (postgres.CountClicks example_data.storeAbcClicked { Alias := "abc123" }).2.1 = 1 := by
  decide

/-- C7: on every store state and for every alias, the counts returned by `StatisticDay`
add up to the value returned by `CountClicks`, which is also what the counts returned by
`StatisticMonth` add up to; the three queries read the same joined clicks and none of
them returns an error. -/
theorem statistics_sum_to_CountClicks (db : postgres.DB) (url : entity.URL) :
    (((postgres.StatisticDay db url).2.1.map (fun s => s.Count)).sum
        = (postgres.CountClicks db url).2.1 ∧
      (postgres.CountClicks db url).2.1
        = ((postgres.StatisticMonth db url).2.1.map (fun s => s.Count)).sum) ∧
    (postgres.StatisticDay db url).2.2 = none ∧ (postgres.CountClicks db url).2.2 = none ∧
    (postgres.StatisticMonth db url).2.2 = none := by
  have hday := groupCount_sum (fun a => postgres.truncDay a.ClickedAt) postgres.timeDesc
    (postgres.joinedClicks db url.Alias)
  have hmonth := groupCount_sum (fun a => postgres.truncMonth a.ClickedAt) postgres.timeDesc
    (postgres.joinedClicks db url.Alias)
  refine ⟨⟨?_, ?_⟩, rfl, rfl, rfl⟩
  · simp only [postgres.StatisticDay, postgres.CountClicks, List.map_map]
    exact hday
  · simp only [postgres.StatisticMonth, postgres.CountClicks, List.map_map]
    exact hmonth.symm

/-- C8: when the random source delivers 8 bytes `b`, `generateAlias(8)` is the first 8
characters of the unpadded base64url encoding of `b`: exactly 8 characters, each in
`[A-Za-z0-9_-]`. Consequently `CreateShortURL` with a non-empty URL and no custom alias
passes validation: over any repository it makes exactly one call, `SaveURL` with that
8-character alias, and the error it returns is the one of that save; on the relational
store that error is never `ErrAliasIncorrect`. -/
theorem generateAlias_eight_random_bytes (amb : Ambient) (b : List Nat)
    (hread : amb.randRead = .ok b) (hlen : b.length = 8) :
    generateAlias 8 amb = String.mk ((base64.EncodeToString b).take 8) ∧
    (generateAlias 8 amb).length = 8 ∧
    (generateAlias 8 amb).data.all aliasClass = true ∧
    (∀ {σ : Type} (s : ShortenerService σ) (st : σ) (req : dto.CreateURLShorterRequest),
      req.URL ≠ "" → req.CustomAlias = "" →
      (CreateShortURL (spy s) amb (st, []) req).1.2
          = [Call.saveURL { Alias := generateAlias 8 amb, OriginalURL := req.URL }] ∧
      (CreateShortURL (spy s) amb (st, []) req).2.2
          = (s.URLRepo.SaveURL st
              { Alias := generateAlias 8 amb, OriginalURL := req.URL }).2.2) ∧
    (∀ (cache : Option (RedisClient postgres.DB)) (db : postgres.DB)
        (req : dto.CreateURLShorterRequest),
      req.URL ≠ "" → req.CustomAlias = "" →
      (CreateShortURL ⟨postgres.NewURLRepo, cache⟩ amb db req).2.2
        ≠ some ErrAliasIncorrect) := by
  obtain ⟨hgen, hlen8, hall⟩ := generateAlias_valid amb b hread hlen
  have hne : (generateAlias 8 amb).data.isEmpty = false := by
    cases hd : (generateAlias 8 amb).data with
    | nil => rw [String.length, hd] at hlen8; exact absurd hlen8 (by decide)
    | cons c cs => rfl
  have hv : isValidAlias (generateAlias 8 amb) = true := by
    simp [isValidAlias, hne, hall]
  refine ⟨hgen, hlen8, hall, ?_, ?_⟩
  · intro σ s st req hurl hal
    rcases hsave : s.URLRepo.SaveURL st
        { Alias := generateAlias 8 amb, OriginalURL := req.URL } with ⟨st', id, _ | err⟩ <;>
    simp [CreateShortURL, hurl, hal, hv, spy, spyRepo, logged, hsave]
  · intro cache db req hurl hal
    have hsafe := SaveURL_error_ne_ErrAliasIncorrect db
      { Alias := generateAlias 8 amb, OriginalURL := req.URL }
    rcases hsave : postgres.SaveURL db
        { Alias := generateAlias 8 amb, OriginalURL := req.URL } with ⟨st', id, _ | err⟩
    · simp [CreateShortURL, hurl, hal, hv, postgres.NewURLRepo, hsave]
    · rw [hsave] at hsafe
      simpa [CreateShortURL, hurl, hal, hv, postgres.NewURLRepo, hsave] using hsafe

/-- Witness for C8: the bytes 255, 254, ..., 248 give the alias `__79_Pv6`. -/
theorem generateAlias_eight_random_bytes_witness :
    generateAlias 8 ⟨.ok [255, 254, 253, 252, 251, 250, 249, 248], entity.Time.zero⟩
      = "__79_Pv6" :=
  (generateAlias_eight_random_bytes
    ⟨.ok [255, 254, 253, 252, 251, 250, 249, 248], entity.Time.zero⟩
    [255, 254, 253, 252, 251, 250, 249, 248] rfl rfl).1.trans (by decide)

/-- C9, evaluated on an alias of 65 letters `a`: `SaveURL` returns id 0, leaves the store
unchanged and returns the error text `alias too large: alias too long (max 64 characters)`,
built with the verb `%s`: `errors.Is` does not recognise it as `ErrAliasTooLarge`, whereas
the error of the sibling conflict path, built with `%w`, is recognised as `ErrAliasExists`. -/
theorem SaveURL_too_large_not_ErrAliasTooLarge :
    postgres.SaveURL example_data.storeAbc
        { Alias := String.mk (List.replicate 65 'a'), OriginalURL := "https://example.com" }
      = (example_data.storeAbc, 0,
          some (GoError.errorf "alias too large: alias too long (max 64 characters)")) ∧
    GoError.Is (GoError.errorf "alias too large: alias too long (max 64 characters)")
        postgres.ErrAliasTooLarge = false ∧
    GoError.Is (GoError.wrapf " " postgres.ErrAliasExists "") postgres.ErrAliasExists
      = true := by
  decide

/-- The length check counts bytes, as `len` does: an alias of 33 two-byte letters is 33
characters long and is refused as too long. -/
theorem SaveURL_length_check_counts_bytes :
    (String.mk (List.replicate 33 'é')).length = 33 ∧
    postgres.SaveURL example_data.storeAbc
        { Alias := String.mk (List.replicate 33 'é'), OriginalURL := "https://example.com" }
      = (example_data.storeAbc, 0,
          some (GoError.errorf "alias too large: alias too long (max 64 characters)")) := by
  decide

/-- The length check of `SaveURL`, in general: an alias of more than 64 bytes is refused
with id 0 before any statement is issued, so the store is unchanged, and the error is not
one that `errors.Is` recognises as `ErrAliasTooLarge`; an alias of at most 64 bytes passes
the check and the outcome is that of the insert. -/
theorem SaveURL_length_check (db : postgres.DB) (url : entity.URL) :
    (url.Alias.utf8ByteSize > 64 →
      postgres.SaveURL db url
        = (db, 0, some (GoError.errorf "alias too large: alias too long (max 64 characters)")) ∧
      ∀ e, (postgres.SaveURL db url).2.2 = some e →
        GoError.Is e postgres.ErrAliasTooLarge = false) ∧
    (url.Alias.utf8ByteSize ≤ 64 →
      (postgres.SaveURL db url).1 = (postgres.insertShortURL db url.OriginalURL url.Alias).1 ∧
      ((postgres.SaveURL db url).2.2 = none ↔
        ∃ id, (postgres.insertShortURL db url.OriginalURL url.Alias).2 = .ok id)) := by
  constructor
  · intro h
    have hs : postgres.SaveURL db url
        = (db, 0, some (GoError.errorf "alias too large: alias too long (max 64 characters)")) := by
      simp only [postgres.SaveURL, h, if_true]
      rfl
    refine ⟨hs, fun e he => ?_⟩
    rw [hs] at he
    cases he
    decide
  · intro h
    have h2 : ¬ url.Alias.utf8ByteSize > 64 := Nat.not_lt.mpr h
    unfold postgres.SaveURL
    rw [if_neg h2]
    rcases postgres.insertShortURL db url.OriginalURL url.Alias with ⟨db', err | id⟩
    · rcases hcode : err.AsPq with _ | code
      · simp [hcode]
      · by_cases h23 : code = "23505" <;> simp [hcode, h23]
    · simp

/-- C10: `getIP` returns, when the `X-Forwarded-For` header is non-empty, the text before
its first comma with surrounding white space trimmed; otherwise the host part of
`RemoteAddr` when `net.SplitHostPort` splits it, and the whole `RemoteAddr` when it does
not. -/
theorem getIP_forwarded_first_else_remote (r : handler.Request) :
    (r.HeaderGet "X-Forwarded-For" ≠ "" →
      handler.getIP r = strings.TrimSpace
        (String.mk ((r.HeaderGet "X-Forwarded-For").data.takeWhile
          (fun c => decide (c ≠ ','))))) ∧
    (r.HeaderGet "X-Forwarded-For" = "" →
      (∀ host port, net.SplitHostPort r.RemoteAddr = .ok (host, port) →
        handler.getIP r = host) ∧
      (∀ e, net.SplitHostPort r.RemoteAddr = .error e → handler.getIP r = r.RemoteAddr)) := by
  refine ⟨fun hx => ?_, fun hx => ⟨fun host port hs => ?_, fun e hs => ?_⟩⟩
  · have hget : handler.getIP r
        = strings.TrimSpace ((strings.Split (r.HeaderGet "X-Forwarded-For") ",").headD "") := by
      unfold handler.getIP
      exact if_pos hx
    rw [hget, Split_comma_headD]
  · simp [handler.getIP, hx, hs]
  · simp [handler.getIP, hx, hs]

/-- Witness for C10: a forwarded chain yields its first entry; without the header the
host of `RemoteAddr` is used, also in bracketed form; and an address without a port is
returned whole. -/
theorem getIP_forwarded_first_else_remote_witness :
    handler.getIP { Header := [("X-Forwarded-For", ["  203.0.113.7 , 10.0.0.1"])],
                    RemoteAddr := "10.0.0.2:5555" } = "203.0.113.7" ∧
    handler.getIP { RemoteAddr := "10.0.0.2:5555" } = "10.0.0.2" ∧
    handler.getIP { RemoteAddr := "[::1]:8080" } = "::1" ∧
    handler.getIP { RemoteAddr := "localhost" } = "localhost" :=
  ⟨((getIP_forwarded_first_else_remote
        { Header := [("X-Forwarded-For", ["  203.0.113.7 , 10.0.0.1"])],
          RemoteAddr := "10.0.0.2:5555" }).1 (by decide)).trans (by decide),
   ((getIP_forwarded_first_else_remote { RemoteAddr := "10.0.0.2:5555" }).2 (by decide)).1
      "10.0.0.2" "5555" (by decide),
   ((getIP_forwarded_first_else_remote { RemoteAddr := "[::1]:8080" }).2 (by decide)).1
      "::1" "8080" (by decide),
   ((getIP_forwarded_first_else_remote { RemoteAddr := "localhost" }).2 (by decide)).2
      (GoError.other "address localhost: missing port in address") (by decide)⟩

/-- The prefix mismatch of `GetAnalytics`, for every alias: on the routed path `"/analytics/" ++ a` the
handler answers 200 with the alias `TrimSpace ("/analytics/" ++ a)`, the path itself up to
trailing white space, and that is never `a` when `a` is a single path segment. -/
theorem GetAnalytics_alias_is_whole_path (answers : Option (String → String × Option GoError))
    (db : postgres.DB) (a : String) :
    ∃ resp, (handler.GetAnalytics (internal.wire answers) db
              { Path := "/analytics/" ++ a }).2 = ⟨200, handler.Body.analytics resp⟩ ∧
      resp.Alias = strings.TrimSpace ("/analytics/" ++ a) ∧
      ('/' ∉ a.data → resp.Alias ≠ a) := by
  have hdata : ("/analytics/" ++ a).data
      = '/' :: ('a' :: 'n' :: 'a' :: 'l' :: 'y' :: 't' :: 'i' :: 'c' :: 's' :: '/' :: a.data) := by
    rw [String.data_append]; rfl
  have hpre : strings.TrimPrefix ("/analytics/" ++ a) "/a/" = "/analytics/" ++ a := by
    have h : ("/a/" : String).data.isPrefixOf ("/analytics/" ++ a).data = false := by
      rw [hdata]; rfl
    simp [strings.TrimPrefix, h]
  have hslash : strings.IsSpace '/' = false := by decide
  have hdrop : ("/analytics/" ++ a).data.dropWhile strings.IsSpace
      = ("/analytics/" ++ a).data := by
    rw [hdata]; simp [List.dropWhile, hslash]
  have hnil : (("/analytics/" ++ a).data.rdropWhile strings.IsSpace) ≠ [] := by
    intro h0
    rw [List.rdropWhile_eq_nil_iff] at h0
    have := h0 '/' (by rw [hdata]; exact List.mem_cons_self _ _)
    rw [hslash] at this
    exact Bool.noConfusion this
  have htrim : (strings.TrimSpace ("/analytics/" ++ a)).data
      = ("/analytics/" ++ a).data.rdropWhile strings.IsSpace := by
    simp only [strings.TrimSpace, hdrop]
  have hne : strings.TrimSpace ("/analytics/" ++ a) ≠ "" := by
    intro h0
    rw [h0] at htrim
    exact hnil htrim.symm
  refine ⟨
    { Alias := strings.TrimSpace ("/analytics/" ++ a),
      ClicksTotal := (postgres.CountClicks db
        { Alias := strings.TrimSpace ("/analytics/" ++ a) }).2.1,
      Records := (postgres.GetAnalytics db
        { Alias := strings.TrimSpace ("/analytics/" ++ a) }).2.1,
      ByDay := (postgres.StatisticDay db
        { Alias := strings.TrimSpace ("/analytics/" ++ a) }).2.1,
      ByMonth := (postgres.StatisticMonth db
        { Alias := strings.TrimSpace ("/analytics/" ++ a) }).2.1,
      ByAgent := (postgres.StatisticAgent db
        { Alias := strings.TrimSpace ("/analytics/" ++ a) }).2.1 }, ?_, rfl, ?_⟩
  · simp [handler.GetAnalytics, hpre, hne, service.CountClicks, service.GetAnalytics,
      service.StatisticDay, service.StatisticMonth, service.StatisticAgent, internal.wire,
      postgres.NewURLRepo, postgres.CountClicks, postgres.GetAnalytics, postgres.StatisticDay,
      postgres.StatisticMonth, postgres.StatisticAgent]
  · intro hno heq
    have hmem : '/' ∈ (strings.TrimSpace ("/analytics/" ++ a)).data := by
      rw [htrim]
      obtain ⟨t, ht⟩ := List.rdropWhile_prefix strings.IsSpace ("/analytics/" ++ a).data
      cases hr : ("/analytics/" ++ a).data.rdropWhile strings.IsSpace with
      | nil => exact absurd hr hnil
      | cons y r =>
        rw [hr, hdata] at ht
        simp only [List.cons_append, List.cons.injEq] at ht
        rw [ht.1]
        exact List.mem_cons_self _ _
    have heq2 : strings.TrimSpace ("/analytics/" ++ a) = a := heq
    rw [heq2] at hmem
    exact hno hmem

/-- The function `net.SplitHostPort` on the plain shape `host:port`, neither part holding
a colon or a bracket: it splits into `host` and `port`. -/
theorem SplitHostPort_plain (host port : String)
    (hh : ∀ c ∈ host.data, c ≠ ':' ∧ c ≠ '[' ∧ c ≠ ']')
    (hp : ∀ c ∈ port.data, c ≠ ':' ∧ c ≠ '[' ∧ c ≠ ']') :
    net.SplitHostPort (host ++ ":" ++ port) = .ok (host, port) := by
  have hdata : (host ++ ":" ++ port).data = host.data ++ ':' :: port.data := by
    simp [String.data_append]
  have hcolon : (host.data ++ ':' :: port.data).contains ':' = true := by simp
  have hidx : (host.data ++ ':' :: port.data).reverse.indexOf ':' = port.data.length := by
    rw [List.reverse_append, List.reverse_cons, List.append_assoc,
      List.indexOf_append_of_not_mem (by
        intro hm
        exact (hp _ (List.mem_reverse.mp hm)).1 rfl)]
    simp
  have hi : (host.data ++ ':' :: port.data).length - 1 - port.data.length
      = host.data.length := by
    simp only [List.length_append, List.length_cons]
    omega
  have hhead : (host.data ++ ':' :: port.data).head? ≠ some '[' := by
    cases hd : host.data with
    | nil => simp
    | cons x t =>
      have := (hh x (by rw [hd]; exact List.mem_cons_self _ _)).2.1
      simpa using this
  have hnoc : host.data.contains ':' = false := by
    rw [List.contains_eq_any_beq, List.any_eq_false]
    intro x hx
    simpa using Ne.symm (hh x hx).1
  have hnol : (host.data ++ ':' :: port.data).contains '[' = false := by
    rw [List.contains_eq_any_beq, List.any_eq_false]
    intro x hx
    rcases List.mem_append.mp hx with h | h
    · simpa using Ne.symm (hh x h).2.1
    · rcases List.mem_cons.mp h with h | h
      · subst h; decide
      · simpa using Ne.symm (hp x h).2.1
  have hnor : (host.data ++ ':' :: port.data).contains ']' = false := by
    rw [List.contains_eq_any_beq, List.any_eq_false]
    intro x hx
    rcases List.mem_append.mp hx with h | h
    · simpa using Ne.symm (hh x h).2.2
    · rcases List.mem_cons.mp h with h | h
      · subst h; decide
      · simpa using Ne.symm (hp x h).2.2
  have htake : (host.data ++ ':' :: port.data).take host.data.length = host.data :=
    List.take_left' rfl
  have hdrop : (host.data ++ ':' :: port.data).drop (host.data.length + 1) = port.data := by
    rw [← List.drop_drop, List.drop_left' rfl]
    rfl
  unfold net.SplitHostPort
  simp only [hdata, hcolon, hidx, hi, hhead, hnoc, hnol, hnor, htake, hdrop]
  simp

/-- Without the forwarding header, a remote address of the plain shape `host:port` gives
`host`, and one without any colon is returned whole. -/
theorem getIP_remote_addr (r : handler.Request) (hx : r.HeaderGet "X-Forwarded-For" = "") :
    (∀ host port : String,
      (∀ c ∈ host.data, c ≠ ':' ∧ c ≠ '[' ∧ c ≠ ']') →
      (∀ c ∈ port.data, c ≠ ':' ∧ c ≠ '[' ∧ c ≠ ']') →
      r.RemoteAddr = host ++ ":" ++ port → handler.getIP r = host) ∧
    (r.RemoteAddr.data.contains ':' = false → handler.getIP r = r.RemoteAddr) := by
  constructor
  · intro host port hh hp haddr
    simp [handler.getIP, hx, haddr, SplitHostPort_plain host port hh hp]
  · intro hno
    have hmem : ':' ∉ r.RemoteAddr.data := by simpa using hno
    simp [handler.getIP, hx, net.SplitHostPort, hmem]

/-- The base64url alphabet has no repeated character: the table lookup is injective on
the indices below 64. -/
theorem enc_injective (i j : Nat) (hi : i < 64) (hj : j < 64)
    (h : base64.enc i = base64.enc j) : i = j := by
  have hall : ∀ i, i < 64 → ∀ j, j < 64 → base64.enc i = base64.enc j → i = j := by
    decide
  exact hall i hi j hj h

/-- The four characters written for one group of three bytes determine the bytes. -/
theorem group_injective (a b c a' b' c' : Nat)
    (ha : a < 256) (hb : b < 256) (hc : c < 256)
    (ha' : a' < 256) (hb' : b' < 256) (hc' : c' < 256)
    (h1 : base64.enc ((a % 256 * 65536 + b % 256 * 256 + c % 256) / 262144 % 64)
        = base64.enc ((a' % 256 * 65536 + b' % 256 * 256 + c' % 256) / 262144 % 64))
    (h2 : base64.enc ((a % 256 * 65536 + b % 256 * 256 + c % 256) / 4096 % 64)
        = base64.enc ((a' % 256 * 65536 + b' % 256 * 256 + c' % 256) / 4096 % 64))
    (h3 : base64.enc ((a % 256 * 65536 + b % 256 * 256 + c % 256) / 64 % 64)
        = base64.enc ((a' % 256 * 65536 + b' % 256 * 256 + c' % 256) / 64 % 64))
    (h4 : base64.enc ((a % 256 * 65536 + b % 256 * 256 + c % 256) % 64)
        = base64.enc ((a' % 256 * 65536 + b' % 256 * 256 + c' % 256) % 64)) :
    a = a' ∧ b = b' ∧ c = c' := by
  have e1 := enc_injective _ _ (Nat.mod_lt _ (by decide)) (Nat.mod_lt _ (by decide)) h1
  have e2 := enc_injective _ _ (Nat.mod_lt _ (by decide)) (Nat.mod_lt _ (by decide)) h2
  have e3 := enc_injective _ _ (Nat.mod_lt _ (by decide)) (Nat.mod_lt _ (by decide)) h3
  have e4 := enc_injective _ _ (Nat.mod_lt _ (by decide)) (Nat.mod_lt _ (by decide)) h4
  omega

/-- A list of eight elements, spelled out. -/
theorem eq_of_length_eight (l : List Nat) (h : l.length = 8) :
    ∃ a0 a1 a2 a3 a4 a5 a6 a7, l = [a0, a1, a2, a3, a4, a5, a6, a7] :=
  match l, h with
  | [a0, a1, a2, a3, a4, a5, a6, a7], _ => ⟨a0, a1, a2, a3, a4, a5, a6, a7, rfl⟩

/-- C11: the alias `generateAlias(8)` makes from an 8-byte draw is the whole unpadded
base64url encoding of the first 6 bytes; so two 8-byte draws yield the same alias exactly
when they agree on their first 6 bytes, whatever their last 2 bytes are. -/
theorem generateAlias_first_six_bytes (now now' : entity.Time) (b b' : List Nat)
    (hlen : b.length = 8) (hlen' : b'.length = 8)
    (hb : ∀ x ∈ b, x < 256) (hb' : ∀ x ∈ b', x < 256) :
    generateAlias 8 ⟨.ok b, now⟩ = String.mk (base64.EncodeToString (b.take 6)) ∧
    (generateAlias 8 ⟨.ok b, now⟩ = generateAlias 8 ⟨.ok b', now'⟩ ↔
      b.take 6 = b'.take 6) := by
  obtain ⟨a0, a1, a2, a3, a4, a5, a6, a7, rfl⟩ := eq_of_length_eight b hlen
  obtain ⟨c0, c1, c2, c3, c4, c5, c6, c7, rfl⟩ := eq_of_length_eight b' hlen'
  refine ⟨by simp [generateAlias, base64.EncodeToString], ?_⟩
  constructor
  · intro h
    have hd := congrArg String.data h
    simp only [generateAlias, base64.EncodeToString, List.take, List.cons.injEq] at hd
    obtain ⟨h1, h2, h3, h4, h5, h6, h7, h8, _⟩ := hd
    have g1 := group_injective a0 a1 a2 c0 c1 c2
      (hb a0 (by simp)) (hb a1 (by simp)) (hb a2 (by simp))
      (hb' c0 (by simp)) (hb' c1 (by simp)) (hb' c2 (by simp)) h1 h2 h3 h4
    have g2 := group_injective a3 a4 a5 c3 c4 c5
      (hb a3 (by simp)) (hb a4 (by simp)) (hb a5 (by simp))
      (hb' c3 (by simp)) (hb' c4 (by simp)) (hb' c5 (by simp)) h5 h6 h7 h8
    simp [g1.1, g1.2.1, g1.2.2, g2.1, g2.2.1, g2.2.2]
  · intro h
    simp only [List.take, List.cons.injEq, and_true] at h
    obtain ⟨h0, h1, h2, h3, h4, h5⟩ := h
    subst h0 h1 h2 h3 h4 h5
    simp [generateAlias, base64.EncodeToString]

/-- Witness for C11: two draws that share the first 6 bytes and differ in the last 2 give
the same alias `AAECAwQF`; changing the sixth byte changes the alias. -/
theorem generateAlias_first_six_bytes_witness :
    generateAlias 8 ⟨.ok [0, 1, 2, 3, 4, 5, 6, 7], entity.Time.zero⟩
      = generateAlias 8 ⟨.ok [0, 1, 2, 3, 4, 5, 200, 9], entity.Time.zero⟩ ∧
    generateAlias 8 ⟨.ok [0, 1, 2, 3, 4, 5, 6, 7], entity.Time.zero⟩
      ≠ generateAlias 8 ⟨.ok [0, 1, 2, 3, 4, 6, 6, 7], entity.Time.zero⟩ ∧
    generateAlias 8 ⟨.ok [0, 1, 2, 3, 4, 5, 6, 7], entity.Time.zero⟩ = "AAECAwQF" :=
  ⟨(generateAlias_first_six_bytes entity.Time.zero entity.Time.zero
      [0, 1, 2, 3, 4, 5, 6, 7] [0, 1, 2, 3, 4, 5, 200, 9] rfl rfl
      (by decide) (by decide)).2.mpr (by decide),
   fun h => absurd
    ((generateAlias_first_six_bytes entity.Time.zero entity.Time.zero
      [0, 1, 2, 3, 4, 5, 6, 7] [0, 1, 2, 3, 4, 6, 6, 7] rfl rfl
      (by decide) (by decide)).2.mp h) (by decide),
   (generateAlias_first_six_bytes entity.Time.zero entity.Time.zero
      [0, 1, 2, 3, 4, 5, 6, 7] [0, 1, 2, 3, 4, 5, 6, 7] rfl rfl
      (by decide) (by decide)).1.trans (by decide)⟩

end Theorems

end Shortner
